import Mathlib

/-!
# MUX74HC4067: a shallow embedding of the driver and its properties

The driver of `MUX74HC4067.cpp` / `MUX74HC4067.h` is embedded as pure functions
on an explicit driver state.  Every method returns the new state together with
the list of HAL calls it issued, in program order; the values the HAL hands
back during one method call (`digitalRead`, `analogRead`, `pulseIn`, `millis`)
are an explicit argument of the method.

Machine integers are `Nat` / `Int` with explicit conversions:
`uint8_t`, `int8_t`, `int16_t` and `unsigned long` (32 bits).
-/

/-! ## Machine integers -/

/-- Conversion to `uint8_t`. -/
def toUInt8 (n : Int) : Nat := (n % 256).toNat

/-- Conversion to `int8_t` (two's complement). -/
def toInt8 (n : Int) : Int := (n + 128) % 256 - 128

/-- Conversion to `int16_t` (two's complement). -/
def toInt16 (n : Int) : Int := (n + 32768) % 65536 - 32768

/-- Number of values of an `unsigned long` (32 bits on the Arduino targets). -/
def ULONG_MOD : Nat := 2 ^ 32

/-- Subtraction of two `unsigned long` values, `a - b` in C. -/
def ulongSub (a b : Nat) : Nat := (a % ULONG_MOD + ULONG_MOD - b % ULONG_MOD) % ULONG_MOD

/-! ## Constants -/

/-- Header constant `#define ANALOG 0`. -/
def ANALOG : Nat := 0
/-- Header constant `#define DIGITAL 1`. -/
def DIGITAL : Nat := 1
/-- Header constant `#define DIGITAL_PULSE 2`. -/
def DIGITAL_PULSE : Nat := 2
/-- Header constant `#define DISABLED 0`. -/
def DISABLED : Nat := 0
/-- Header constant `#define ENABLED 1`. -/
def ENABLED : Nat := 1

/-- Modelled from the spec: `LOW` of `Arduino.h`, which is not among the sources;
the HAL contract of the spec is "digital write/read of 0/1". -/
def LOW : Nat := 0

/-- Modelled from the spec: `HIGH` of `Arduino.h`, which is not among the sources;
the HAL contract of the spec is "digital write/read of 0/1". -/
def HIGH : Nat := 1

/-- The pin-mode constants of `Arduino.h`, which is not among the sources.  Their
values differ between Arduino cores, so they are a parameter of the model. -/
structure Board where
  INPUT : Nat
  OUTPUT : Nat
  INPUT_PULLUP : Nat
deriving DecidableEq, Repr

/-- The pin-mode constants of the AVR core: `INPUT 0x0`, `OUTPUT 0x1`,
`INPUT_PULLUP 0x2`. -/
def Board.avr : Board := ⟨0, 1, 2⟩

/-! ## The HAL -/

/-- One call of a HAL primitive, with the arguments the driver passed. -/
inductive HalEvent where
  | pinMode (pin mode : Nat)
  | digitalWrite (pin val : Nat)
  | analogWrite (pin val : Nat)
  | digitalRead (pin : Nat)
  | analogRead (pin : Nat)
  | pulseIn (pin state : Nat)
  | millis
deriving DecidableEq, Repr

/-- What the HAL primitives return during one method call: `digitalRead` and
`analogRead` return an `int`, `pulseIn` and `millis` an `unsigned long`. -/
structure HalIn where
  digitalRead : Int
  analogRead : Int
  pulseIn : Nat
  millis : Nat
deriving DecidableEq, Repr

/-- The value an event writes to `pin` with `digitalWrite`, if it is such a write. -/
def digitalWriteTo (pin : Nat) : HalEvent → Option Nat
  | HalEvent.digitalWrite p v => if p = pin then some v else none
  | _ => none

/-- The value of the last `digitalWrite` to `pin` in a trace, if there is one. -/
def lastDigitalWrite (pin : Nat) : List HalEvent → Option Nat
  | [] => none
  | e :: rest =>
    match lastDigitalWrite pin rest with
    | some v => some v
    | none => digitalWriteTo pin e

/-! ## The driver state -/

/-- The private members of `class MUX74HC4067` (`btnPin` is never used). -/
structure MUX74HC4067 where
  /-- An `int8_t`: -1 not applicable, 0 analog, 1 digital, 2 digital (pulseIn) -/
  signal_pin_status : Int
  /-- An `uint8_t`: INPUT, OUTPUT, INPUT_PULLUP -/
  signal_mode : Nat
  /-- An `uint8_t`. -/
  num_of_control_pins : Nat
  /-- An `uint8_t`: DISABLED, ENABLED -/
  enable_status : Nat
  /-- An `uint8_t`. -/
  enable_pin : Nat
  /-- An `int8_t`. -/
  signal_pin : Int
  /-- The array `int8_t control_pin[4]`. -/
  control_pin : List Int
  /-- An `uint8_t`. -/
  current_channel : Nat
  /-- An `unsigned long`. -/
  debounceTime : Nat
  /-- An `int`. -/
  previousSteadyState : Int
  /-- An `int`. -/
  lastSteadyState : Int
  /-- An `int`. -/
  lastFlickerableState : Int
  /-- An `unsigned long`. -/
  lastDebounceTime : Nat
deriving DecidableEq, Repr

/-- The members the constructor leaves uninitialised: their values are
indeterminate, so they are an argument of the constructor. -/
structure Uninit where
  debounceTime : Nat
  previousSteadyState : Int
  lastSteadyState : Int
  lastFlickerableState : Int
  lastDebounceTime : Nat
deriving DecidableEq, Repr

/-- The loop `for (i = 0; i < num_of_control_pins; ++i) pinMode(control_pin[i], OUTPUT);`
of the constructor, with `n` iterations left from index `i`. -/
def ctorLoop (b : Board) (cp : List Int) : Nat → Nat → List HalEvent
  | 0, _ => []
  | n + 1, i => HalEvent.pinMode (toUInt8 (cp.getD i 0)) b.OUTPUT :: ctorLoop b cp n (i + 1)

/-- The constructor `MUX74HC4067::MUX74HC4067(uint8_t en, int8_t s0, int8_t s1, int8_t s2, int8_t s3)`. -/
def MUX74HC4067.ctor (b : Board) (en : Nat) (s0 s1 s2 s3 : Int) (u : Uninit) :
    MUX74HC4067 × List HalEvent :=
  let num := 1 + (if s1 ≠ -1 then 1 else 0) + (if s2 ≠ -1 then 1 else 0)
    + (if s3 ≠ -1 then 1 else 0)
  let cp := [s0, s1, s2, s3]
  ({ signal_pin_status := -1
     signal_mode := 0
     num_of_control_pins := num
     enable_status := DISABLED
     enable_pin := en
     signal_pin := -1
     control_pin := cp
     current_channel := 0
     debounceTime := u.debounceTime
     previousSteadyState := u.previousSteadyState
     lastSteadyState := u.lastSteadyState
     lastFlickerableState := u.lastFlickerableState
     lastDebounceTime := u.lastDebounceTime },
   [HalEvent.pinMode en b.OUTPUT, HalEvent.digitalWrite en HIGH] ++ ctorLoop b cp num 0)

/-- The loop of `setChannel`:
`for (...) { digitalWrite(control_pin[i], pin & 0x01); pin >>= 1; }`
with `n` iterations left from index `i`.  On the `int8_t` value `pin`,
`pin & 0x01` is `pin % 2` and `pin >> 1` is `pin / 2` (rounding down). -/
def setChannelLoop (cp : List Int) : Nat → Nat → Int → List HalEvent
  | 0, _, _ => []
  | n + 1, i, pin =>
    HalEvent.digitalWrite (toUInt8 (cp.getD i 0)) (pin % 2).toNat
      :: setChannelLoop cp n (i + 1) (toInt8 (pin / 2))

/-- The method `void setChannel(int8_t pin, uint8_t set)`. -/
def MUX74HC4067.setChannel (d : MUX74HC4067) (pin : Int) (set : Nat) :
    MUX74HC4067 × List HalEvent :=
  let ev1 := [HalEvent.digitalWrite d.enable_pin HIGH]
  let d1 := { d with current_channel := toUInt8 pin }
  let ev2 := setChannelLoop d1.control_pin d1.num_of_control_pins 0 pin
  let d2 := { d1 with enable_status := ENABLED }
  let ev3 := if set = ENABLED then [HalEvent.digitalWrite d2.enable_pin LOW] else []
  (d2, ev1 ++ ev2 ++ ev3)

/-- The method `void enable()`. -/
def MUX74HC4067.enable (d : MUX74HC4067) : MUX74HC4067 × List HalEvent :=
  ({ d with enable_status := ENABLED }, [HalEvent.digitalWrite d.enable_pin LOW])

/-- The method `void disable()`. -/
def MUX74HC4067.disable (d : MUX74HC4067) : MUX74HC4067 × List HalEvent :=
  ({ d with enable_status := DISABLED }, [HalEvent.digitalWrite d.enable_pin HIGH])

/-- The method `void signalPin(uint8_t sig, uint8_t mode, uint8_t type, unsigned long time)`. -/
def MUX74HC4067.signalPin (b : Board) (d : MUX74HC4067) (sig mode type time : Nat)
    (h : HalIn) : MUX74HC4067 × List HalEvent :=
  let d0 := { d with signal_pin := toInt8 sig }
  let r : MUX74HC4067 × List HalEvent :=
    if mode = b.INPUT ∨ mode = b.INPUT_PULLUP then
      let d1 := { d0 with signal_mode := b.INPUT }
      let r1 : MUX74HC4067 × List HalEvent :=
        if mode = b.INPUT_PULLUP then
          ({ d1 with signal_mode := b.INPUT_PULLUP }, [HalEvent.pinMode sig b.INPUT_PULLUP])
        else
          (d1, [HalEvent.digitalWrite sig LOW, HalEvent.pinMode sig b.INPUT])
      ({ r1.1 with
          previousSteadyState := h.digitalRead
          lastSteadyState := h.digitalRead
          lastFlickerableState := h.digitalRead
          debounceTime := time
          lastDebounceTime := 0 },
       r1.2 ++ [HalEvent.digitalRead sig])
    else if mode = b.OUTPUT then
      ({ d0 with signal_mode := b.OUTPUT }, [HalEvent.pinMode sig b.OUTPUT])
    else
      (d0, [])
  let d2 :=
    if type = ANALOG then { r.1 with signal_pin_status := 0 }
    else if type = DIGITAL then { r.1 with signal_pin_status := 1 }
    else if type = DIGITAL_PULSE then { r.1 with signal_pin_status := 2 }
    else r.1
  (d2, r.2)

/-- The method `int16_t read(int8_t chan_pin)`.  The local `data` is an `int16_t`, so
what a HAL primitive returns is converted to `int16_t`; `last_channel` is a
`uint8_t` and is converted to the `int8_t` parameter of `setChannel`. -/
def MUX74HC4067.read (d : MUX74HC4067) (chan_pin : Int) (h : HalIn) :
    MUX74HC4067 × List HalEvent × Int :=
  let last_en_status := d.enable_status
  let last_channel := d.current_channel
  let r1 : MUX74HC4067 × List HalEvent :=
    if chan_pin ≠ -1 then d.setChannel chan_pin ENABLED else (d, [])
  let sig := toUInt8 r1.1.signal_pin
  let r2 : Int × List HalEvent :=
    if r1.1.signal_pin_status = 0 then (toInt16 h.analogRead, [HalEvent.analogRead sig])
    else if r1.1.signal_pin_status = 1 then (toInt16 h.digitalRead, [HalEvent.digitalRead sig])
    else if r1.1.signal_pin_status = 2 then (toInt16 h.pulseIn, [HalEvent.pulseIn sig LOW])
    else (-1, [])
  let r3 : MUX74HC4067 × List HalEvent :=
    if chan_pin ≠ -1 then r1.1.setChannel (toInt8 last_channel) last_en_status else (r1.1, [])
  (r3.1, r1.2 ++ r2.2 ++ r3.2, r2.1)

/-- The method `uint8_t write(int8_t chan_pin, uint8_t data, int8_t type)`. -/
def MUX74HC4067.write (b : Board) (d : MUX74HC4067) (chan_pin : Int) (data : Nat)
    (type : Int) : MUX74HC4067 × List HalEvent × Nat :=
  if d.signal_mode = b.INPUT ∨ d.signal_mode = b.INPUT_PULLUP then
    (d, [], toUInt8 (-1))
  else
    let r1 := d.disable
    let sig := toUInt8 r1.1.signal_pin
    let ev2 :=
      if type = ANALOG then [HalEvent.analogWrite sig data]
      else if type = DIGITAL then [HalEvent.digitalWrite sig data]
      else []
    let r3 := r1.1.setChannel chan_pin ENABLED
    (r3.1, r1.2 ++ ev2 ++ r3.2, 0)

/-- The method `void checkTiming()`. -/
def MUX74HC4067.checkTiming (d : MUX74HC4067) (h : HalIn) : MUX74HC4067 × List HalEvent :=
  if d.signal_pin_status = 1 then
    let currentState := h.digitalRead
    let currentTime := h.millis % ULONG_MOD
    let d1 :=
      if currentState ≠ d.lastFlickerableState then
        { d with lastDebounceTime := currentTime, lastFlickerableState := currentState }
      else d
    let d2 :=
      if ulongSub currentTime d1.lastDebounceTime ≥ d1.debounceTime then
        { d1 with previousSteadyState := d1.lastSteadyState, lastSteadyState := currentState }
      else d1
    (d2, [HalEvent.digitalRead (toUInt8 d.signal_pin), HalEvent.millis])
  else (d, [])

/-- The method `bool isReleased(int8_t chan_pin)`.  Its locals `last_channel` and
`last_en_status` are assigned and never read, so they leave no trace here. -/
def MUX74HC4067.isReleased (d : MUX74HC4067) (chan_pin : Int) :
    MUX74HC4067 × List HalEvent × Bool :=
  let r1 : MUX74HC4067 × List HalEvent :=
    if chan_pin ≠ -1 then d.setChannel chan_pin ENABLED else (d, [])
  let data : Bool :=
    if r1.1.signal_pin_status = 1 then
      decide (r1.1.previousSteadyState = LOW ∧ r1.1.lastSteadyState = HIGH)
    else false
  (r1.1, r1.2, data)

/-- The method `bool isPressed(int8_t chan_pin)`.  Its locals `last_channel` and
`last_en_status` are assigned and never read, so they leave no trace here. -/
def MUX74HC4067.isPressed (d : MUX74HC4067) (chan_pin : Int) :
    MUX74HC4067 × List HalEvent × Bool :=
  let r1 : MUX74HC4067 × List HalEvent :=
    if chan_pin ≠ -1 then d.setChannel chan_pin ENABLED else (d, [])
  let data : Bool :=
    if r1.1.signal_pin_status = 1 then
      decide (r1.1.previousSteadyState = HIGH ∧ r1.1.lastSteadyState = LOW)
    else false
  (r1.1, r1.2, data)

/-! ## Sequences of calls -/

/-- One call of a public method, with its arguments and the values the HAL
returns during the call. -/
inductive Op where
  | setChannel (pin : Int) (set : Nat)
  | enable
  | disable
  | signalPin (sig mode type time : Nat) (h : HalIn)
  | read (chan_pin : Int) (h : HalIn)
  | write (chan_pin : Int) (data : Nat) (type : Int)
  | checkTiming (h : HalIn)
  | isReleased (chan_pin : Int)
  | isPressed (chan_pin : Int)
deriving DecidableEq, Repr

/-- The effect of one call on the driver state, and the HAL calls it issues. -/
def MUX74HC4067.step (b : Board) (d : MUX74HC4067) : Op → MUX74HC4067 × List HalEvent
  | Op.setChannel pin set => d.setChannel pin set
  | Op.enable => d.enable
  | Op.disable => d.disable
  | Op.signalPin sig mode type time h => d.signalPin b sig mode type time h
  | Op.read chan_pin h => ((d.read chan_pin h).1, (d.read chan_pin h).2.1)
  | Op.write chan_pin data type =>
    ((d.write b chan_pin data type).1, (d.write b chan_pin data type).2.1)
  | Op.checkTiming h => d.checkTiming h
  | Op.isReleased chan_pin => ((d.isReleased chan_pin).1, (d.isReleased chan_pin).2.1)
  | Op.isPressed chan_pin => ((d.isPressed chan_pin).1, (d.isPressed chan_pin).2.1)

/-- The effect of a sequence of calls, in order. -/
def MUX74HC4067.run (b : Board) (d : MUX74HC4067) : List Op → MUX74HC4067 × List HalEvent
  | [] => (d, [])
  | op :: ops => ((MUX74HC4067.run b (d.step b op).1 ops).1,
      (d.step b op).2 ++ (MUX74HC4067.run b (d.step b op).1 ops).2)

/-- The state after a sequence of `checkTiming` polls, each with the level and the
clock value the HAL returns at that poll. -/
def MUX74HC4067.polls (d : MUX74HC4067) (hs : List HalIn) : MUX74HC4067 :=
  hs.foldl (fun s h => (s.checkTiming h).1) d

/-- The level `digitalRead` returns at poll `i` of a sequence of polls. -/
def levelAt (hs : List HalIn) (i : Nat) : Int := (hs.getD i ⟨0, 0, 0, 0⟩).digitalRead

/-- The clock value `millis` returns at poll `i` of a sequence of polls. -/
def timeAt (hs : List HalIn) (i : Nat) : Nat := (hs.getD i ⟨0, 0, 0, 0⟩).millis

/-- The driver state after `signalPin(sig, INPUT_PULLUP, DIGITAL, w)`, during which
the HAL returns `h0`, followed by the first `n` polls of `hs`. -/
def debouncerAfter (b : Board) (d : MUX74HC4067) (sig w : Nat) (h0 : HalIn)
    (hs : List HalIn) (n : Nat) : MUX74HC4067 :=
  (d.signalPin b sig b.INPUT_PULLUP DIGITAL w h0).1.polls (hs.take n)

/-- The polls HIGH at 0 ms, LOW at 10, 30, 60 and 70 ms. -/
def pressPolls : List HalIn :=
  [⟨1, 0, 0, 0⟩, ⟨0, 0, 0, 10⟩, ⟨0, 0, 0, 30⟩, ⟨0, 0, 0, 60⟩, ⟨0, 0, 0, 70⟩]

/-- The polls HIGH at 0 ms, LOW at 10, HIGH at 20, LOW at 30 and HIGH at 40 ms. -/
def bouncePolls : List HalIn :=
  [⟨1, 0, 0, 0⟩, ⟨0, 0, 0, 10⟩, ⟨1, 0, 0, 20⟩, ⟨0, 0, 0, 30⟩, ⟨1, 0, 0, 40⟩]

/-- The pin ids in use are pairwise distinct: the control pins among themselves
and each of them from the enable pin. -/
def DistinctPins (d : MUX74HC4067) : Prop :=
  (∀ i, i < d.num_of_control_pins → ∀ j, j < d.num_of_control_pins → i ≠ j →
    toUInt8 (d.control_pin.getD i 0) ≠ toUInt8 (d.control_pin.getD j 0)) ∧
  (∀ i, i < d.num_of_control_pins → toUInt8 (d.control_pin.getD i 0) ≠ d.enable_pin)

instance (d : MUX74HC4067) : Decidable (DistinctPins d) := by
  unfold DistinctPins
  infer_instance

/-- A driver on the AVR board with enable pin 2 and the four control pins 3, 4, 5, 6. -/
def demo4 : MUX74HC4067 := (MUX74HC4067.ctor Board.avr 2 3 4 5 6 ⟨0, 0, 0, 0, 0⟩).1

/-- A driver on the AVR board with enable pin 2 and the two control pins 3, 4. -/
def demo2 : MUX74HC4067 :=
  (MUX74HC4067.ctor Board.avr 2 3 4 (-1) (-1) ⟨0, 0, 0, 0, 0⟩).1

/-- The test `(currentTime - lastDebounceTime) >= debounceTime` of `checkTiming`, taken
as the method takes it: only when the signal type is DIGITAL, and after the update
of `lastDebounceTime` on a changed reading.  When it holds, `checkTiming` assigns
`previousSteadyState = lastSteadyState`. -/
def debouncePasses (d : MUX74HC4067) (h : HalIn) : Prop :=
  d.signal_pin_status = 1 ∧
  d.debounceTime ≤ ulongSub (h.millis % ULONG_MOD)
    (if h.digitalRead ≠ d.lastFlickerableState then h.millis % ULONG_MOD
      else d.lastDebounceTime)

instance (d : MUX74HC4067) (h : HalIn) : Decidable (debouncePasses d h) := by
  unfold debouncePasses
  infer_instance

/-- The control-pin ids a constructor call provides: the arguments other than -1. -/
def providedPins (s0 s1 s2 s3 : Int) : List Int :=
  [s0, s1, s2, s3].filter (fun s => decide (s ≠ -1))

/-- The channel argument of a call is a channel 0..15, or is left out (-1) where
the method allows that. -/
def Op.channelOk : Op → Prop
  | Op.setChannel pin _ => 0 ≤ pin ∧ pin ≤ 15
  | Op.read chan_pin _ => -1 ≤ chan_pin ∧ chan_pin ≤ 15
  | Op.write chan_pin _ _ => 0 ≤ chan_pin ∧ chan_pin ≤ 15
  | Op.isReleased chan_pin => -1 ≤ chan_pin ∧ chan_pin ≤ 15
  | Op.isPressed chan_pin => -1 ≤ chan_pin ∧ chan_pin ≤ 15
  | _ => True

/-- The signal pin a `signalPin` call names is none of the control pins of `d`. -/
def Op.sigClear (d : MUX74HC4067) : Op → Prop
  | Op.signalPin sig _ _ _ _ =>
    ∀ i, i < d.num_of_control_pins → toUInt8 (d.control_pin.getD i 0) ≠ sig
  | _ => True

/-- The control lines carry `current_channel`: it is at most 15, and each control
pin `i` last received bit `i` of it, or has received no level yet while
`current_channel` is 0. -/
def SelectionInv (d : MUX74HC4067) (tr : List HalEvent) : Prop :=
  d.current_channel ≤ 15 ∧
  ∀ i, i < d.num_of_control_pins →
    lastDigitalWrite (toUInt8 (d.control_pin.getD i 0)) tr
        = some ((d.current_channel >>> i) &&& 1) ∨
      (lastDigitalWrite (toUInt8 (d.control_pin.getD i 0)) tr = none ∧ d.current_channel = 0)

/-- The two states have the same pins: control pins, their number, enable pin. -/
def SameWiring (d d' : MUX74HC4067) : Prop :=
  d'.control_pin = d.control_pin ∧ d'.num_of_control_pins = d.num_of_control_pins ∧
  d'.enable_pin = d.enable_pin

instance (op : Op) : Decidable op.channelOk := by
  cases op <;> unfold Op.channelOk <;> infer_instance

instance (d : MUX74HC4067) (op : Op) : Decidable (op.sigClear d) := by
  cases op <;> unfold Op.sigClear <;> infer_instance

/-! ## Machine-integer facts -/

/-- Halving a value of 0..127 stays in the `int8_t` range. -/
theorem toInt8_half (c : Nat) (hc : c < 128) : toInt8 (((c : Nat) : Int) / 2) = ((c / 2 : Nat) : Int) := by
  unfold toInt8
  omega

/-- The low bit of a non-negative value. -/
theorem low_bit_cast (c : Nat) : (((c : Nat) : Int) % 2).toNat = c % 2 := by
  omega

/-- Values of 0..255 are kept by the conversion to `uint8_t`. -/
theorem toUInt8_cast (c : Nat) (hc : c < 256) : toUInt8 ((c : Nat) : Int) = c := by
  unfold toUInt8
  omega

/-- Values of 0..127 are kept by the conversion to `int8_t`. -/
theorem toInt8_cast (c : Nat) (hc : c < 128) : toInt8 ((c : Nat) : Int) = (c : Int) := by
  unfold toInt8
  omega

/-! ## Traces -/

/-- The last write to a pin in a trace with one more event in front. -/
theorem lastDigitalWrite_cons (p : Nat) (e : HalEvent) (rest : List HalEvent) :
    lastDigitalWrite p (e :: rest) =
      match lastDigitalWrite p rest with
      | some v => some v
      | none => digitalWriteTo p e := rfl

/-- The last write to a pin in two traces, one after the other. -/
theorem lastDigitalWrite_append (p : Nat) (xs ys : List HalEvent) :
    lastDigitalWrite p (xs ++ ys) =
      match lastDigitalWrite p ys with
      | some v => some v
      | none => lastDigitalWrite p xs := by
  induction xs with
  | nil =>
    rw [List.nil_append]
    cases lastDigitalWrite p ys <;> rfl
  | cons e rest ih =>
    rw [List.cons_append, lastDigitalWrite_cons, ih, lastDigitalWrite_cons]
    cases lastDigitalWrite p ys <;> rfl

/-- The loop of `setChannel` writes to control pins only. -/
theorem lastDigitalWrite_setChannelLoop_none (cp : List Int) (p : Nat) :
    ∀ (n i : Nat) (pin : Int), (∀ j, i ≤ j → j < i + n → toUInt8 (cp.getD j 0) ≠ p) →
      lastDigitalWrite p (setChannelLoop cp n i pin) = none := by
  intro n
  induction n with
  | zero => intro i pin _; rfl
  | succ n ih =>
    intro i pin h
    have h1 := ih (i + 1) (toInt8 (pin / 2)) (fun j hj1 hj2 => h j (by omega) (by omega))
    have h2 := h i (le_refl i) (by omega)
    rw [setChannelLoop, lastDigitalWrite_cons, h1]
    exact if_neg h2

/-- The loop of `setChannel` leaves bit `j - i` of the channel on control pin `j`,
when the pins it goes through are distinct. -/
theorem lastDigitalWrite_setChannelLoop (cp : List Int) :
    ∀ (n i c j : Nat), c < 128 → i ≤ j → j < i + n →
      (∀ m, i ≤ m → m < i + n → m ≠ j → toUInt8 (cp.getD m 0) ≠ toUInt8 (cp.getD j 0)) →
      lastDigitalWrite (toUInt8 (cp.getD j 0)) (setChannelLoop cp n i (c : Int))
        = some ((c >>> (j - i)) &&& 1) := by
  intro n
  induction n with
  | zero => intro i c j _ h1 h2 _; omega
  | succ n ih =>
    intro i c j hc h1 h2 hd
    rw [setChannelLoop, toInt8_half c hc, low_bit_cast, lastDigitalWrite_cons]
    rcases Nat.eq_or_lt_of_le h1 with h | h
    · subst h
      have hn := lastDigitalWrite_setChannelLoop_none cp (toUInt8 (cp.getD i 0)) n (i + 1)
        ((c / 2 : Nat) : Int) (fun m hm1 hm2 => hd m (by omega) (by omega) (by omega))
      rw [hn, Nat.sub_self, Nat.shiftRight_zero, Nat.and_one_is_mod]
      exact if_pos rfl
    · have hr := ih (i + 1) (c / 2) j (by omega) (by omega) (by omega)
        (fun m hm1 hm2 hm3 => hd m (by omega) (by omega) hm3)
      have hb : (c / 2) >>> (j - (i + 1)) &&& 1 = c >>> (j - i) &&& 1 := by
        have hji : j - i = (j - (i + 1)) + 1 := by omega
        rw [hji, Nat.shiftRight_eq_div_pow, Nat.shiftRight_eq_div_pow, Nat.div_div_eq_div_mul,
          pow_succ']
      rw [hr, hb]

/-- The loop of `setChannel` with `n` iterations reads the low `n` bits only. -/
theorem setChannelLoop_mod (cp : List Int) :
    ∀ (n i c : Nat), c < 128 →
      setChannelLoop cp n i ((c % 2 ^ n : Nat) : Int) = setChannelLoop cp n i (c : Int) := by
  intro n
  induction n with
  | zero => intro i c _; rfl
  | succ n ih =>
    intro i c hc
    have hlt : c % 2 ^ (n + 1) < 128 := lt_of_le_of_lt (Nat.mod_le _ _) hc
    rw [setChannelLoop, setChannelLoop, toInt8_half c hc, toInt8_half _ hlt, low_bit_cast,
      low_bit_cast]
    have h1 : c % 2 ^ (n + 1) % 2 = c % 2 := by
      rw [pow_succ']
      exact Nat.mod_mul_right_mod c 2 (2 ^ n)
    have h2 : c % 2 ^ (n + 1) / 2 = (c / 2) % 2 ^ n := by
      rw [pow_succ', Nat.mod_mul_right_div_self]
    rw [h1, h2, ih (i + 1) (c / 2) (by omega)]

/-- The loop of `setChannel` issues one write per control pin. -/
theorem setChannelLoop_length (cp : List Int) :
    ∀ (n i : Nat) (pin : Int), (setChannelLoop cp n i pin).length = n := by
  intro n
  induction n with
  | zero => intro i pin; rfl
  | succ n ih => intro i pin; rw [setChannelLoop, List.length_cons, ih]

/-- Write number `j` of the loop of `setChannel` goes to control pin `i + j`. -/
theorem setChannelLoop_getElem_some (cp : List Int) :
    ∀ (n i : Nat) (pin : Int) (j : Nat), j < n →
      ∃ v, (setChannelLoop cp n i pin)[j]? =
        some (HalEvent.digitalWrite (toUInt8 (cp.getD (i + j) 0)) v) := by
  intro n
  induction n with
  | zero => intro i pin j hj; omega
  | succ n ih =>
    intro i pin j hj
    rw [setChannelLoop]
    cases j with
    | zero => exact ⟨_, List.getElem?_cons_zero⟩
    | succ j =>
      obtain ⟨v, hv⟩ := ih (i + 1) (toInt8 (pin / 2)) j (by omega)
      refine ⟨v, ?_⟩
      rw [List.getElem?_cons_succ, hv, Nat.add_assoc, Nat.add_comm 1 j]

/-! ## Channel selection -/

/-- C1: in a driver whose pin ids are distinct (in particular with 1 to 4 control
pins), after `setChannel(c)` with `c` in 0..15 the level last written to control
pin `i` is bit `i` of `c`, `(c >> i) & 1`, for every `i` below the number of
control pins; and `setChannel(c mod 2^k)` issues exactly the same pin writes as
`setChannel(c)`, so the bits of `c` from position `k` on reach no pin. -/
theorem setChannel_control_lines (d : MUX74HC4067) (c set : Nat) (hd : DistinctPins d)
    (hc : c ≤ 15) :
    (∀ i, i < d.num_of_control_pins →
      lastDigitalWrite (toUInt8 (d.control_pin.getD i 0)) (d.setChannel (c : Int) set).2
        = some ((c >>> i) &&& 1)) ∧
    (d.setChannel ((c % 2 ^ d.num_of_control_pins : Nat) : Int) set).2
      = (d.setChannel (c : Int) set).2 := by
  constructor
  · intro i hi
    have hloop := lastDigitalWrite_setChannelLoop d.control_pin d.num_of_control_pins 0 c i
      (by omega) (Nat.zero_le i) (by omega)
      (fun m _ hm hne => hd.1 m (by omega) i hi hne)
    have hen : digitalWriteTo (toUInt8 (d.control_pin.getD i 0))
        (HalEvent.digitalWrite d.enable_pin LOW) = none :=
      if_neg (fun h => hd.2 i hi h.symm)
    rw [Nat.sub_zero] at hloop
    unfold MUX74HC4067.setChannel
    by_cases hs : set = ENABLED
    · simp only [hs, if_true]
      rw [lastDigitalWrite_append, lastDigitalWrite_cons, lastDigitalWrite, hen,
        lastDigitalWrite_append, hloop]
    · simp only [hs, if_false]
      rw [List.append_nil, lastDigitalWrite_append, hloop]
  · unfold MUX74HC4067.setChannel
    simp only
    rw [setChannelLoop_mod d.control_pin d.num_of_control_pins 0 c (by omega)]

/-- C1, witness: on the driver with control pins 3, 4, 5, 6 (S0..S3), `setChannel(10)`
leaves the levels 0, 1, 0, 1 on S0..S3. -/
theorem setChannel_control_lines_witness :
    lastDigitalWrite 3 (demo4.setChannel 10 ENABLED).2 = some 0 ∧
    lastDigitalWrite 4 (demo4.setChannel 10 ENABLED).2 = some 1 ∧
    lastDigitalWrite 5 (demo4.setChannel 10 ENABLED).2 = some 0 ∧
    lastDigitalWrite 6 (demo4.setChannel 10 ENABLED).2 = some 1 :=
  have h := setChannel_control_lines demo4 10 ENABLED (by decide) (by decide)
  ⟨h.1 0 (by decide), h.1 1 (by decide), h.1 2 (by decide), h.1 3 (by decide)⟩

/-- C2: when the enable pin is not one of the control pins, the pin writes of
`setChannel(c, ENABLED)` are `k + 2` writes: the first drives the enable pin HIGH,
the next `k` are the control-pin writes in order, the last drives the enable pin
LOW, and no other write of the sequence drives the enable pin LOW; with
`setChannel(c, DISABLED)` no write drives the enable pin LOW. -/
theorem setChannel_enable_ordering (d : MUX74HC4067) (c : Int)
    (hen : ∀ i, i < d.num_of_control_pins →
      toUInt8 (d.control_pin.getD i 0) ≠ d.enable_pin) :
    (d.setChannel c ENABLED).2.length = d.num_of_control_pins + 2 ∧
    (d.setChannel c ENABLED).2[0]? = some (HalEvent.digitalWrite d.enable_pin HIGH) ∧
    (∀ i, i < d.num_of_control_pins → ∃ v, (d.setChannel c ENABLED).2[i + 1]? =
      some (HalEvent.digitalWrite (toUInt8 (d.control_pin.getD i 0)) v)) ∧
    (d.setChannel c ENABLED).2[d.num_of_control_pins + 1]? =
      some (HalEvent.digitalWrite d.enable_pin LOW) ∧
    (∀ j, (d.setChannel c ENABLED).2[j]? = some (HalEvent.digitalWrite d.enable_pin LOW) →
      j = d.num_of_control_pins + 1) ∧
    HalEvent.digitalWrite d.enable_pin LOW ∉ (d.setChannel c DISABLED).2 := by
  have hlen := setChannelLoop_length d.control_pin d.num_of_control_pins 0 c
  have hE : (d.setChannel c ENABLED).2 = HalEvent.digitalWrite d.enable_pin HIGH ::
      (setChannelLoop d.control_pin d.num_of_control_pins 0 c
        ++ [HalEvent.digitalWrite d.enable_pin LOW]) := by
    simp [MUX74HC4067.setChannel]
  have hD : (d.setChannel c DISABLED).2 = HalEvent.digitalWrite d.enable_pin HIGH ::
      setChannelLoop d.control_pin d.num_of_control_pins 0 c := by
    simp [MUX74HC4067.setChannel, DISABLED, ENABLED]
  have hctl : ∀ i, i < d.num_of_control_pins → ∃ v,
      (setChannelLoop d.control_pin d.num_of_control_pins 0 c)[i]? =
        some (HalEvent.digitalWrite (toUInt8 (d.control_pin.getD i 0)) v) := by
    intro i hi
    have h := setChannelLoop_getElem_some d.control_pin d.num_of_control_pins 0 c i hi
    rwa [Nat.zero_add] at h
  rw [hE, hD]
  refine ⟨?_, List.getElem?_cons_zero, ?_, ?_, ?_, ?_⟩
  · rw [List.length_cons, List.length_append, hlen]
    rfl
  · intro i hi
    obtain ⟨v, hv⟩ := hctl i hi
    refine ⟨v, ?_⟩
    rw [List.getElem?_cons_succ, List.getElem?_append_left (by omega), hv]
  · rw [List.getElem?_cons_succ, List.getElem?_append_right (by omega), hlen, Nat.sub_self]
    rfl
  · intro j hj
    cases j with
    | zero =>
      rw [List.getElem?_cons_zero] at hj
      simp [HIGH, LOW] at hj
    | succ j =>
      rw [List.getElem?_cons_succ] at hj
      rcases Nat.lt_trichotomy j d.num_of_control_pins with h | h | h
      · obtain ⟨v, hv⟩ := hctl j h
        rw [List.getElem?_append_left (by omega), hv] at hj
        simp only [Option.some.injEq, HalEvent.digitalWrite.injEq] at hj
        exact absurd hj.1 (hen j h)
      · rw [h]
      · rw [List.getElem?_append_right (by omega), hlen] at hj
        have : j - d.num_of_control_pins = (j - d.num_of_control_pins - 1) + 1 := by omega
        rw [this] at hj
        simp at hj
  · intro hmem
    rcases List.mem_cons.mp hmem with h | h
    · simp [HIGH, LOW] at h
    · obtain ⟨j, hj⟩ := List.getElem?_of_mem h
      have hjlt : j < d.num_of_control_pins := by
        by_contra hge
        rw [List.getElem?_eq_none (by omega)] at hj
        simp at hj
      obtain ⟨v, hv⟩ := hctl j hjlt
      rw [hv] at hj
      simp only [Option.some.injEq, HalEvent.digitalWrite.injEq] at hj
      exact absurd hj.1 (hen j hjlt)

/-- C2, witness: the driver with enable pin 2 and control pins 3, 4, 5, 6, channel 10. -/
theorem setChannel_enable_ordering_witness :
    (demo4.setChannel 10 ENABLED).2 =
      [HalEvent.digitalWrite 2 1, HalEvent.digitalWrite 3 0, HalEvent.digitalWrite 4 1,
       HalEvent.digitalWrite 5 0, HalEvent.digitalWrite 6 1, HalEvent.digitalWrite 2 0] ∧
    ((demo4.setChannel 10 ENABLED).2.length = 6 ∧
     HalEvent.digitalWrite 2 0 ∉ (demo4.setChannel 10 DISABLED).2) :=
  have h := setChannel_enable_ordering demo4 10 (by decide)
  ⟨by decide, h.1, h.2.2.2.2.2⟩

/-! ## Reading and writing -/

/-- C3: after `setChannel(A)` followed by `read(B)`, for channels `A` and `B` in
0..15, any driver state (so any signal configuration) and any HAL values,
`current_channel` is `A` and `enable_status` is what it was just before `read(B)`. -/
theorem read_after_setChannel_restores (d : MUX74HC4067) (A B set : Nat) (h : HalIn)
    (hA : A ≤ 15) (hB : B ≤ 15) :
    ((d.setChannel (A : Int) set).1.read (B : Int) h).1.current_channel = A ∧
    ((d.setChannel (A : Int) set).1.read (B : Int) h).1.enable_status
      = (d.setChannel (A : Int) set).1.enable_status := by
  have hB1 : (B : Int) ≠ -1 := by omega
  have hA1 : toUInt8 (toInt8 ((toUInt8 (A : Int) : Nat) : Int)) = A := by
    unfold toUInt8 toInt8
    omega
  simp [MUX74HC4067.read, MUX74HC4067.setChannel, hB1, hA1]

/-- C3, witness: `signalPin(14, INPUT, ANALOG)`, `setChannel(3)`, then `read(7)` with
the ADC returning 812: the call returns 812 and leaves `current_channel = 3`. -/
theorem read_after_setChannel_restores_witness :
    ((((demo4.signalPin Board.avr 14 0 ANALOG 50 ⟨0, 0, 0, 0⟩).1.setChannel 3 ENABLED).1.read 7
        ⟨0, 812, 0, 0⟩).2.2 = 812) ∧
    ((((demo4.signalPin Board.avr 14 0 ANALOG 50 ⟨0, 0, 0, 0⟩).1.setChannel 3 ENABLED).1.read 7
        ⟨0, 812, 0, 0⟩).1.current_channel = 3) :=
  ⟨by decide,
   (read_after_setChannel_restores (demo4.signalPin Board.avr 14 0 ANALOG 50 ⟨0, 0, 0, 0⟩).1
      3 7 ENABLED ⟨0, 812, 0, 0⟩ (by decide) (by decide)).1⟩

/-- When the signal pin is not an input, `write` returns 0 and issues `disable()`,
then the write selected by the `type` argument alone (PWM for ANALOG, digital for
DIGITAL, none for any other value), then `setChannel(chan_pin, ENABLED)`. -/
theorem write_trace (b : Board) (d : MUX74HC4067) (chan_pin : Int) (data : Nat) (type : Int)
    (hm : ¬ (d.signal_mode = b.INPUT ∨ d.signal_mode = b.INPUT_PULLUP)) :
    (d.write b chan_pin data type).2.2 = 0 ∧
    (d.write b chan_pin data type).2.1 =
      d.disable.2 ++
      (if type = ANALOG then [HalEvent.analogWrite (toUInt8 d.signal_pin) data]
        else if type = DIGITAL then [HalEvent.digitalWrite (toUInt8 d.signal_pin) data]
        else []) ++
      (d.disable.1.setChannel chan_pin ENABLED).2 := by
  simp [MUX74HC4067.write, hm, MUX74HC4067.disable]

/-- C6, the code at the failing input: after `signalPin(14, OUTPUT, ANALOG)`, the
call `write(5, 128)` with the default `type = -1` returns 0 and issues `disable()`
and `setChannel(5, ENABLED)` only; no PWM write (and no write at all) reaches the
signal pin 14. -/
theorem write_default_type_skips_signal_write :
    ((demo4.signalPin Board.avr 14 1 ANALOG 50 ⟨0, 0, 0, 0⟩).1.write Board.avr 5 128 (-1)).2 =
      ([HalEvent.digitalWrite 2 1,
        HalEvent.digitalWrite 2 1, HalEvent.digitalWrite 3 1, HalEvent.digitalWrite 4 0,
        HalEvent.digitalWrite 5 1, HalEvent.digitalWrite 6 0, HalEvent.digitalWrite 2 0], 0) ∧
    HalEvent.analogWrite 14 128 ∉
      ((demo4.signalPin Board.avr 14 1 ANALOG 50 ⟨0, 0, 0, 0⟩).1.write Board.avr 5 128 (-1)).2.1 := by
  decide

/-- C7: in every driver state whose signal direction is INPUT or INPUT_PULLUP,
`write` returns 255 (the `uint8_t` value of -1) for every channel, value and
override type, issues no HAL call at all (so no `digitalWrite` and no
`analogWrite` to the signal pin) and leaves the state as it was. -/
theorem write_input_fails (b : Board) (d : MUX74HC4067) (chan_pin : Int) (data : Nat)
    (type : Int) (hm : d.signal_mode = b.INPUT ∨ d.signal_mode = b.INPUT_PULLUP) :
    (d.write b chan_pin data type).2.2 = 255 ∧
    (d.write b chan_pin data type).2.1 = [] ∧
    (d.write b chan_pin data type).1 = d := by
  simp [MUX74HC4067.write, hm, toUInt8]

/-- The direction `signalPin` records for an input mode is that mode. -/
theorem signalPin_input_mode (b : Board) (d : MUX74HC4067) (sig mode type time : Nat)
    (h : HalIn) (hm : mode = b.INPUT ∨ mode = b.INPUT_PULLUP) :
    (d.signalPin b sig mode type time h).1.signal_mode = mode := by
  simp only [MUX74HC4067.signalPin, hm, if_true]
  split_ifs <;> simp_all

/-- C7, witness: after `signalPin(14, INPUT_PULLUP, DIGITAL)` on the AVR board,
`write(5, 1, DIGITAL)` returns 255 and issues no HAL call. -/
theorem write_input_fails_witness :
    ((demo4.signalPin Board.avr 14 2 DIGITAL 50 ⟨1, 0, 0, 0⟩).1.write Board.avr 5 1 1).2.2 = 255 ∧
    ((demo4.signalPin Board.avr 14 2 DIGITAL 50 ⟨1, 0, 0, 0⟩).1.write Board.avr 5 1 1).2.1 = [] :=
  have h := write_input_fails Board.avr (demo4.signalPin Board.avr 14 2 DIGITAL 50 ⟨1, 0, 0, 0⟩).1
    5 1 1 (Or.inr (signalPin_input_mode Board.avr demo4 14 2 DIGITAL 50 ⟨1, 0, 0, 0⟩ (Or.inr rfl)))
  ⟨h.1, h.2.1⟩

/-- The value `read()` without a channel argument returns is the `int16_t` conversion
of what the one HAL primitive selected by `signal_pin_status` returned, and -1
for any other status; the state is unchanged and no other HAL call is issued. -/
theorem read_no_channel (d : MUX74HC4067) (h : HalIn) :
    (d.read (-1) h).1 = d ∧
    (d.signal_pin_status = 0 →
      (d.read (-1) h).2 = ([HalEvent.analogRead (toUInt8 d.signal_pin)], toInt16 h.analogRead)) ∧
    (d.signal_pin_status = 1 →
      (d.read (-1) h).2 = ([HalEvent.digitalRead (toUInt8 d.signal_pin)], toInt16 h.digitalRead)) ∧
    (d.signal_pin_status = 2 →
      (d.read (-1) h).2 = ([HalEvent.pulseIn (toUInt8 d.signal_pin) LOW], toInt16 h.pulseIn)) ∧
    (d.signal_pin_status ≠ 0 → d.signal_pin_status ≠ 1 → d.signal_pin_status ≠ 2 →
      (d.read (-1) h).2 = ([], -1)) := by
  refine ⟨by simp [MUX74HC4067.read], ?_, ?_, ?_, ?_⟩
  · intro h0
    simp [MUX74HC4067.read, h0]
  · intro h1
    simp [MUX74HC4067.read, h1]
  · intro h2
    simp [MUX74HC4067.read, h2]
  · intro h0 h1 h2
    simp [MUX74HC4067.read, h0, h1, h2]

/-- The conversion to `int16_t` keeps every value of the `int16_t` range. -/
theorem toInt16_of_range (v : Int) (h1 : -32768 ≤ v) (h2 : v ≤ 32767) : toInt16 v = v := by
  unfold toInt16
  omega

/-- C8, the code at the failing input: with the signal type DIGITAL_PULSE, a LOW pulse
that `pulseIn` measures as 40000 microseconds makes `read()` return -25536, and one
of 65535 microseconds makes it return -1, the value of an unset signal type. -/
theorem read_pulse_truncated :
    ((demo4.signalPin Board.avr 14 0 DIGITAL_PULSE 50 ⟨0, 0, 0, 0⟩).1.read (-1)
        ⟨0, 0, 40000, 0⟩).2 = ([HalEvent.pulseIn 14 0], -25536) ∧
    ((demo4.signalPin Board.avr 14 0 DIGITAL_PULSE 50 ⟨0, 0, 0, 0⟩).1.read (-1)
        ⟨0, 0, 65535, 0⟩).2 = ([HalEvent.pulseIn 14 0], -1) := by
  decide

/-! ## Edge queries -/

/-- C9 as amended: for every driver state (so for every reachable one) and every
channel argument, `isPressed` returns true exactly when the signal type is DIGITAL
(`signal_pin_status = 1`) and `previousSteadyState = HIGH` and
`lastSteadyState = LOW`, and `isReleased` exactly when the signal type is DIGITAL
and `previousSteadyState = LOW` and `lastSteadyState = HIGH`. -/
theorem edge_queries_iff (d : MUX74HC4067) (chan_pin : Int) :
    ((d.isPressed chan_pin).2.2 = true ↔
      d.signal_pin_status = 1 ∧ d.previousSteadyState = HIGH ∧ d.lastSteadyState = LOW) ∧
    ((d.isReleased chan_pin).2.2 = true ↔
      d.signal_pin_status = 1 ∧ d.previousSteadyState = LOW ∧ d.lastSteadyState = HIGH) := by
  constructor
  · by_cases hc : chan_pin = -1 <;> by_cases hs : d.signal_pin_status = 1 <;>
      simp [MUX74HC4067.isPressed, MUX74HC4067.setChannel, hc, hs]
  · by_cases hc : chan_pin = -1 <;> by_cases hs : d.signal_pin_status = 1 <;>
      simp [MUX74HC4067.isReleased, MUX74HC4067.setChannel, hc, hs]

/-- C9, counterexample: the constructed driver `demo4`, then
`signalPin(14, INPUT_PULLUP, DIGITAL, 50)` reading HIGH, a poll reading LOW at 10 ms,
a poll reading LOW at 60 ms, and `signalPin(14, OUTPUT, ANALOG)`: the state has
`previousSteadyState = HIGH` and `lastSteadyState = LOW`, and `isPressed()` returns
false. -/
theorem isPressed_false_on_falling_edge :
    (demo4.run Board.avr
      [Op.signalPin 14 2 DIGITAL 50 ⟨1, 0, 0, 0⟩, Op.checkTiming ⟨0, 0, 0, 10⟩,
       Op.checkTiming ⟨0, 0, 0, 60⟩, Op.signalPin 14 1 ANALOG 50 ⟨0, 0, 0, 0⟩]).1.previousSteadyState
      = HIGH ∧
    (demo4.run Board.avr
      [Op.signalPin 14 2 DIGITAL 50 ⟨1, 0, 0, 0⟩, Op.checkTiming ⟨0, 0, 0, 10⟩,
       Op.checkTiming ⟨0, 0, 0, 60⟩, Op.signalPin 14 1 ANALOG 50 ⟨0, 0, 0, 0⟩]).1.lastSteadyState
      = LOW ∧
    ((demo4.run Board.avr
      [Op.signalPin 14 2 DIGITAL 50 ⟨1, 0, 0, 0⟩, Op.checkTiming ⟨0, 0, 0, 10⟩,
       Op.checkTiming ⟨0, 0, 0, 60⟩, Op.signalPin 14 1 ANALOG 50 ⟨0, 0, 0, 0⟩]).1.isPressed
      (-1)).2.2 = false := by
  decide

/-- C10, the code at the failing input: after `setChannel(3)`, the calls `isPressed(7)`
and `isReleased(7)` leave `current_channel = 7` and the control lines S0..S3 at
1, 1, 1, 0 (channel 7), where `read(7)` leaves `current_channel = 3`. -/
theorem edge_query_override_not_restored :
    ((demo4.setChannel 3 ENABLED).1.isPressed 7).1.current_channel = 7 ∧
    ((demo4.setChannel 3 ENABLED).1.isReleased 7).1.current_channel = 7 ∧
    ((demo4.setChannel 3 ENABLED).1.isPressed 7).2.1 =
      [HalEvent.digitalWrite 2 1, HalEvent.digitalWrite 3 1, HalEvent.digitalWrite 4 1,
       HalEvent.digitalWrite 5 1, HalEvent.digitalWrite 6 0, HalEvent.digitalWrite 2 0] ∧
    ((demo4.setChannel 3 ENABLED).1.isReleased 7).2.1 =
      ((demo4.setChannel 3 ENABLED).1.isPressed 7).2.1 ∧
    ((demo4.setChannel 3 ENABLED).1.read 7 ⟨0, 0, 0, 0⟩).1.current_channel = 3 := by
  decide

/-! ## The debouncer -/

/-- Without wrap, the `unsigned long` difference is the difference. -/
theorem ulongSub_of_le (a b : Nat) (ha : a < ULONG_MOD) (hb : b ≤ a) : ulongSub a b = a - b := by
  unfold ulongSub
  unfold ULONG_MOD at *
  omega

/-- The state after `n + 1` polls is the state after `n` polls and one more poll. -/
theorem polls_take_succ (d : MUX74HC4067) (hs : List HalIn) (n : Nat) (hn : n < hs.length) :
    d.polls (hs.take (n + 1)) =
      ((d.polls (hs.take n)).checkTiming (hs.getD n ⟨0, 0, 0, 0⟩)).1 := by
  unfold MUX74HC4067.polls
  rw [List.take_succ, List.foldl_append, List.getD_eq_getElem?_getD, List.getElem?_eq_getElem hn]
  rfl

/-- One poll on a driver whose signal type is DIGITAL, field by field. -/
theorem checkTiming_digital (d : MUX74HC4067) (h : HalIn) (hs : d.signal_pin_status = 1) :
    (d.checkTiming h).1.signal_pin_status = 1 ∧
    (d.checkTiming h).1.debounceTime = d.debounceTime ∧
    (d.checkTiming h).1.lastFlickerableState = h.digitalRead ∧
    (d.checkTiming h).1.lastDebounceTime =
      (if h.digitalRead ≠ d.lastFlickerableState then h.millis % ULONG_MOD
        else d.lastDebounceTime) ∧
    (d.debounceTime ≤ ulongSub (h.millis % ULONG_MOD) (d.checkTiming h).1.lastDebounceTime →
      (d.checkTiming h).1.previousSteadyState = d.lastSteadyState ∧
      (d.checkTiming h).1.lastSteadyState = h.digitalRead) ∧
    (¬ d.debounceTime ≤ ulongSub (h.millis % ULONG_MOD) (d.checkTiming h).1.lastDebounceTime →
      (d.checkTiming h).1.previousSteadyState = d.previousSteadyState ∧
      (d.checkTiming h).1.lastSteadyState = d.lastSteadyState) := by
  unfold MUX74HC4067.checkTiming
  simp only [hs, if_true]
  by_cases hf : h.digitalRead = d.lastFlickerableState
  · simp only [hf, ne_eq, not_true_eq_false, if_false]
    split_ifs <;> simp_all
  · simp only [hf, ne_eq, not_false_eq_true, if_true]
    split_ifs <;> simp_all

/-- The debouncer state `signalPin(sig, INPUT_PULLUP, DIGITAL, w)` leaves. -/
theorem signalPin_seed (b : Board) (d : MUX74HC4067) (sig w : Nat) (h0 : HalIn) :
    (d.signalPin b sig b.INPUT_PULLUP DIGITAL w h0).1.signal_pin_status = 1 ∧
    (d.signalPin b sig b.INPUT_PULLUP DIGITAL w h0).1.debounceTime = w ∧
    (d.signalPin b sig b.INPUT_PULLUP DIGITAL w h0).1.previousSteadyState = h0.digitalRead ∧
    (d.signalPin b sig b.INPUT_PULLUP DIGITAL w h0).1.lastSteadyState = h0.digitalRead ∧
    (d.signalPin b sig b.INPUT_PULLUP DIGITAL w h0).1.lastFlickerableState = h0.digitalRead ∧
    (d.signalPin b sig b.INPUT_PULLUP DIGITAL w h0).1.lastDebounceTime = 0 := by
  simp [MUX74HC4067.signalPin, DIGITAL, ANALOG]

/-- The state after `n + 1` polls of a seeded debouncer. -/
theorem debouncerAfter_succ (b : Board) (d : MUX74HC4067) (sig w : Nat) (h0 : HalIn)
    (hs : List HalIn) (n : Nat) (hn : n < hs.length) :
    debouncerAfter b d sig w h0 hs (n + 1) =
      ((debouncerAfter b d sig w h0 hs n).checkTiming (hs.getD n ⟨0, 0, 0, 0⟩)).1 :=
  polls_take_succ _ hs n hn

/-- What `isPressed()` without a channel argument returns. -/
theorem isPressed_no_channel (d : MUX74HC4067) :
    (d.isPressed (-1)).2.2 = true ↔
      d.signal_pin_status = 1 ∧ d.previousSteadyState = HIGH ∧ d.lastSteadyState = LOW := by
  by_cases hs : d.signal_pin_status = 1 <;> simp [MUX74HC4067.isPressed, hs]

/-- What `isReleased()` without a channel argument returns. -/
theorem isReleased_no_channel (d : MUX74HC4067) :
    (d.isReleased (-1)).2.2 = true ↔
      d.signal_pin_status = 1 ∧ d.previousSteadyState = LOW ∧ d.lastSteadyState = HIGH := by
  by_cases hs : d.signal_pin_status = 1 <;> simp [MUX74HC4067.isReleased, hs]

/-- The two levels differ. -/
theorem high_ne_low : ((HIGH : Nat) : Int) ≠ ((LOW : Nat) : Int) := by decide

/-- The invariant of the debouncer while a pull-up input that read HIGH goes LOW
at poll `m` and stays LOW. -/
theorem debounce_press_invariant (b : Board) (d : MUX74HC4067) (sig w : Nat) (h0 : HalIn)
    (hs : List HalIn) (m : Nat) (hw : 0 < w) (hseed : h0.digitalRead = HIGH)
    (hmono : ∀ j, j < hs.length → ∀ i, i ≤ j → timeAt hs i ≤ timeAt hs j)
    (hwrap : ∀ i, i < hs.length → timeAt hs i < ULONG_MOD)
    (hhigh : ∀ i, i < m → levelAt hs i = HIGH)
    (hlow : ∀ i, i < hs.length → m ≤ i → levelAt hs i = LOW) :
    ∀ n, n ≤ hs.length →
      (debouncerAfter b d sig w h0 hs n).signal_pin_status = 1 ∧
      (debouncerAfter b d sig w h0 hs n).debounceTime = w ∧
      (n ≤ m →
        (debouncerAfter b d sig w h0 hs n).lastFlickerableState = HIGH ∧
        (debouncerAfter b d sig w h0 hs n).previousSteadyState = HIGH ∧
        (debouncerAfter b d sig w h0 hs n).lastSteadyState = HIGH) ∧
      (m < n →
        (debouncerAfter b d sig w h0 hs n).lastFlickerableState = LOW ∧
        (debouncerAfter b d sig w h0 hs n).lastDebounceTime = timeAt hs m ∧
        (timeAt hs (n - 1) < timeAt hs m + w →
          (debouncerAfter b d sig w h0 hs n).previousSteadyState = HIGH ∧
          (debouncerAfter b d sig w h0 hs n).lastSteadyState = HIGH) ∧
        (timeAt hs m + w ≤ timeAt hs (n - 1) →
          (debouncerAfter b d sig w h0 hs n).lastSteadyState = LOW ∧
          ((∀ i, i < n - 1 → timeAt hs i < timeAt hs m + w) →
            (debouncerAfter b d sig w h0 hs n).previousSteadyState = HIGH) ∧
          (¬ (∀ i, i < n - 1 → timeAt hs i < timeAt hs m + w) →
            (debouncerAfter b d sig w h0 hs n).previousSteadyState = LOW))) := by
  intro n
  induction n with
  | zero =>
    intro _
    obtain ⟨s1, s2, s3, s4, s5, _⟩ := signalPin_seed b d sig w h0
    have h0' : debouncerAfter b d sig w h0 hs 0 =
        (d.signalPin b sig b.INPUT_PULLUP DIGITAL w h0).1 := by
      simp [debouncerAfter, MUX74HC4067.polls]
    rw [h0']
    refine ⟨s1, s2, fun _ => ⟨?_, ?_, ?_⟩, fun h => absurd h (Nat.not_lt_zero m)⟩
    · rw [s5, hseed]
    · rw [s3, hseed]
    · rw [s4, hseed]
  | succ n ih =>
    intro hn
    have hn' : n < hs.length := hn
    obtain ⟨i1, i2, i3, i4⟩ := ih (Nat.le_of_lt hn')
    obtain ⟨c1, c2, c3, c4, c5, c6⟩ :=
      checkTiming_digital (debouncerAfter b d sig w h0 hs n) (hs.getD n ⟨0, 0, 0, 0⟩) i1
    rw [← debouncerAfter_succ b d sig w h0 hs n hn'] at c1 c2 c3 c4 c5 c6
    have hlev : (hs.getD n ⟨0, 0, 0, 0⟩).digitalRead = levelAt hs n := rfl
    have htime : (hs.getD n ⟨0, 0, 0, 0⟩).millis % ULONG_MOD = timeAt hs n :=
      Nat.mod_eq_of_lt (hwrap n hn')
    rw [hlev] at c3 c4 c5
    rw [htime] at c4 c5 c6
    rw [i2] at c5 c6
    refine ⟨c1, c2.trans i2, ?_, ?_⟩
    · intro hle
      have hnm : n < m := hle
      obtain ⟨f1, f2, f3⟩ := i3 (Nat.le_of_lt hnm)
      have hl := hhigh n hnm
      refine ⟨c3.trans hl, ?_, ?_⟩
      · by_cases hc : w ≤ ulongSub (timeAt hs n)
            (debouncerAfter b d sig w h0 hs (n + 1)).lastDebounceTime
        · exact (c5 hc).1.trans f3
        · exact (c6 hc).1.trans f2
      · by_cases hc : w ≤ ulongSub (timeAt hs n)
            (debouncerAfter b d sig w h0 hs (n + 1)).lastDebounceTime
        · exact (c5 hc).2.trans hl
        · exact (c6 hc).2.trans f3
    · intro hlt
      have hl := hlow n hn' (Nat.le_of_lt_succ hlt)
      rw [Nat.add_sub_cancel]
      rcases Nat.eq_or_lt_of_le (Nat.le_of_lt_succ hlt) with hmn | hmn
      · subst hmn
        obtain ⟨f1, f2, f3⟩ := i3 (le_refl m)
        have hne : levelAt hs m ≠ (debouncerAfter b d sig w h0 hs m).lastFlickerableState := by
          rw [hl, f1]
          exact high_ne_low.symm
        rw [if_pos hne] at c4
        rw [c4, ulongSub_of_le _ _ (hwrap m hn') (le_refl _), Nat.sub_self] at c6
        have hc : ¬ w ≤ 0 := by omega
        refine ⟨c3.trans hl, c4, fun _ => ⟨(c6 hc).1.trans f2, (c6 hc).2.trans f3⟩, ?_⟩
        intro hT
        omega
      · obtain ⟨f1, f2, f3, f4⟩ := i4 hmn
        have heq : ¬ levelAt hs n ≠ (debouncerAfter b d sig w h0 hs n).lastFlickerableState := by
          rw [hl, f1]
          exact not_not.mpr rfl
        rw [if_neg heq, f2] at c4
        have hmt : timeAt hs m ≤ timeAt hs n := hmono n hn' m (Nat.le_of_lt hmn)
        have hpt : timeAt hs (n - 1) ≤ timeAt hs n := hmono n hn' (n - 1) (Nat.sub_le n 1)
        rw [c4, ulongSub_of_le _ _ (hwrap n hn') hmt] at c5 c6
        refine ⟨c3.trans hl, c4, ?_, ?_⟩
        · intro hT
          have hc : ¬ w ≤ timeAt hs n - timeAt hs m := by omega
          obtain ⟨g1, g2⟩ := f3 (by omega)
          exact ⟨(c6 hc).1.trans g1, (c6 hc).2.trans g2⟩
        · intro hT
          have hc : w ≤ timeAt hs n - timeAt hs m := by omega
          refine ⟨(c5 hc).2.trans hl, ?_, ?_⟩
          · intro hall
            have hp := hall (n - 1) (by omega)
            exact (c5 hc).1.trans (f3 hp).2
          · intro hnall
            have hp : timeAt hs m + w ≤ timeAt hs (n - 1) := by
              by_contra hcon
              apply hnall
              intro i hi
              have := hmono (n - 1) (by omega) i (by omega)
              omega
            exact (c5 hc).1.trans (f4 hp).1

/-- C4: after `signalPin(sig, INPUT_PULLUP, DIGITAL, w)` with `w > 0` has seeded the
debouncer with HIGH, let the polls `hs` come at non-decreasing clock values below
2^32, read HIGH before poll `m` and LOW from poll `m` (at time `t0`) on.  Then after
poll `n`, `lastSteadyState` is HIGH if the poll is at a time `< t0 + w` and LOW if it
is at a time `>= t0 + w`, and `isPressed()` returns true exactly when poll `n` is the
first poll at a time `>= t0 + w`. -/
theorem debounce_press (b : Board) (d : MUX74HC4067) (sig w : Nat) (h0 : HalIn)
    (hs : List HalIn) (m : Nat) (hw : 0 < w) (hseed : h0.digitalRead = HIGH)
    (hm : m < hs.length)
    (hmono : ∀ j, j < hs.length → ∀ i, i ≤ j → timeAt hs i ≤ timeAt hs j)
    (hwrap : ∀ i, i < hs.length → timeAt hs i < ULONG_MOD)
    (hhigh : ∀ i, i < m → levelAt hs i = HIGH)
    (hlow : ∀ i, i < hs.length → m ≤ i → levelAt hs i = LOW)
    (n : Nat) (hn : n < hs.length) :
    (timeAt hs n < timeAt hs m + w →
      (debouncerAfter b d sig w h0 hs (n + 1)).lastSteadyState = HIGH) ∧
    (timeAt hs m + w ≤ timeAt hs n →
      (debouncerAfter b d sig w h0 hs (n + 1)).lastSteadyState = LOW) ∧
    (((debouncerAfter b d sig w h0 hs (n + 1)).isPressed (-1)).2.2 = true ↔
      (timeAt hs m + w ≤ timeAt hs n ∧ ∀ i, i < n → timeAt hs i < timeAt hs m + w)) := by
  obtain ⟨i1, _, i3, i4⟩ :=
    debounce_press_invariant b d sig w h0 hs m hw hseed hmono hwrap hhigh hlow (n + 1) hn
  rw [Nat.add_sub_cancel] at i4
  have hbefore : n + 1 ≤ m → timeAt hs n < timeAt hs m + w := by
    intro hle
    have := hmono m hm n (by omega)
    omega
  refine ⟨?_, ?_, ?_⟩
  · intro hT
    by_cases hle : n + 1 ≤ m
    · exact (i3 hle).2.2
    · exact ((i4 (by omega)).2.2.1 hT).2
  · intro hT
    by_cases hle : n + 1 ≤ m
    · have := hbefore hle
      omega
    · exact ((i4 (by omega)).2.2.2 hT).1
  · rw [isPressed_no_channel]
    constructor
    · rintro ⟨_, hp, hl⟩
      by_cases hle : n + 1 ≤ m
      · rw [(i3 hle).2.2] at hl
        exact absurd hl high_ne_low
      · obtain ⟨_, _, g3, g4⟩ := i4 (by omega)
        have hT : timeAt hs m + w ≤ timeAt hs n := by
          by_contra hcon
          rw [(g3 (by omega)).2] at hl
          exact absurd hl high_ne_low
        refine ⟨hT, ?_⟩
        by_contra hnall
        rw [(g4 hT).2.2 hnall] at hp
        exact absurd hp high_ne_low.symm
    · rintro ⟨hT, hall⟩
      have hlt : m < n + 1 := by
        by_contra hcon
        have := hbefore (by omega)
        omega
      obtain ⟨_, _, _, g4⟩ := i4 hlt
      exact ⟨i1, (g4 hT).2.1 hall, (g4 hT).1⟩

/-- C4, witness: `w = 50` and the polls HIGH@0, LOW@10, LOW@30, LOW@60, LOW@70:
`isPressed()` is true after the poll at 60, where `previousSteadyState = HIGH` and
`lastSteadyState = LOW`, and false after the polls at 0, 10, 30 and 70. -/
theorem debounce_press_witness :
    ((debouncerAfter Board.avr demo4 14 50 ⟨1, 0, 0, 0⟩ pressPolls 4).isPressed (-1)).2.2 = true ∧
    (debouncerAfter Board.avr demo4 14 50 ⟨1, 0, 0, 0⟩ pressPolls 4).previousSteadyState = HIGH ∧
    (debouncerAfter Board.avr demo4 14 50 ⟨1, 0, 0, 0⟩ pressPolls 4).lastSteadyState = LOW ∧
    ((debouncerAfter Board.avr demo4 14 50 ⟨1, 0, 0, 0⟩ pressPolls 1).isPressed (-1)).2.2 = false ∧
    ((debouncerAfter Board.avr demo4 14 50 ⟨1, 0, 0, 0⟩ pressPolls 2).isPressed (-1)).2.2 = false ∧
    ((debouncerAfter Board.avr demo4 14 50 ⟨1, 0, 0, 0⟩ pressPolls 3).isPressed (-1)).2.2 = false ∧
    ((debouncerAfter Board.avr demo4 14 50 ⟨1, 0, 0, 0⟩ pressPolls 5).isPressed (-1)).2.2 = false :=
  have h := debounce_press Board.avr demo4 14 50 ⟨1, 0, 0, 0⟩ pressPolls 1 (by decide) rfl
    (by decide) (by decide) (by decide) (by decide) (by decide) 3 (by decide)
  ⟨h.2.2.mpr ⟨by decide, by decide⟩, by decide, h.2.1 (by decide), by decide, by decide,
    by decide, by decide⟩

/-- The invariant of the debouncer while every run of polls reading another level
than the seeded one is shorter than the debounce window. -/
theorem debounce_bounce_invariant (b : Board) (d : MUX74HC4067) (sig w : Nat) (h0 : HalIn)
    (hs : List HalIn) (hw : 0 < w)
    (hmono : ∀ j, j < hs.length → ∀ i, i ≤ j → timeAt hs i ≤ timeAt hs j)
    (hwrap : ∀ i, i < hs.length → timeAt hs i < ULONG_MOD)
    (hshort : ∀ j, j < hs.length → ∀ i, i ≤ j →
      (∀ k, i ≤ k → k ≤ j → levelAt hs k ≠ h0.digitalRead) → timeAt hs j < timeAt hs i + w) :
    ∀ n, n ≤ hs.length →
      (debouncerAfter b d sig w h0 hs n).signal_pin_status = 1 ∧
      (debouncerAfter b d sig w h0 hs n).debounceTime = w ∧
      (debouncerAfter b d sig w h0 hs n).previousSteadyState = h0.digitalRead ∧
      (debouncerAfter b d sig w h0 hs n).lastSteadyState = h0.digitalRead ∧
      ((debouncerAfter b d sig w h0 hs n).lastFlickerableState = h0.digitalRead ∨
        ∃ i, i < n ∧ (∀ k, i ≤ k → k < n → levelAt hs k ≠ h0.digitalRead) ∧
          timeAt hs i ≤ (debouncerAfter b d sig w h0 hs n).lastDebounceTime ∧
          (debouncerAfter b d sig w h0 hs n).lastDebounceTime ≤ timeAt hs (n - 1)) := by
  intro n
  induction n with
  | zero =>
    intro _
    obtain ⟨s1, s2, s3, s4, s5, _⟩ := signalPin_seed b d sig w h0
    have h0' : debouncerAfter b d sig w h0 hs 0 =
        (d.signalPin b sig b.INPUT_PULLUP DIGITAL w h0).1 := by
      simp [debouncerAfter, MUX74HC4067.polls]
    rw [h0']
    exact ⟨s1, s2, s3, s4, Or.inl s5⟩
  | succ n ih =>
    intro hn
    have hn' : n < hs.length := hn
    obtain ⟨i1, i2, i3, i4, i5⟩ := ih (Nat.le_of_lt hn')
    obtain ⟨c1, c2, c3, c4, c5, c6⟩ :=
      checkTiming_digital (debouncerAfter b d sig w h0 hs n) (hs.getD n ⟨0, 0, 0, 0⟩) i1
    rw [← debouncerAfter_succ b d sig w h0 hs n hn'] at c1 c2 c3 c4 c5 c6
    have hlev : (hs.getD n ⟨0, 0, 0, 0⟩).digitalRead = levelAt hs n := rfl
    have htime : (hs.getD n ⟨0, 0, 0, 0⟩).millis % ULONG_MOD = timeAt hs n :=
      Nat.mod_eq_of_lt (hwrap n hn')
    rw [hlev] at c3 c4 c5
    rw [htime] at c4 c5 c6
    rw [i2] at c5 c6
    rw [Nat.add_sub_cancel]
    by_cases hL : levelAt hs n = h0.digitalRead
    · refine ⟨c1, c2.trans i2, ?_, ?_, Or.inl (c3.trans hL)⟩
      · by_cases hc : w ≤ ulongSub (timeAt hs n)
            (debouncerAfter b d sig w h0 hs (n + 1)).lastDebounceTime
        · exact (c5 hc).1.trans i4
        · exact (c6 hc).1.trans i3
      · by_cases hc : w ≤ ulongSub (timeAt hs n)
            (debouncerAfter b d sig w h0 hs (n + 1)).lastDebounceTime
        · exact (c5 hc).2.trans hL
        · exact (c6 hc).2.trans i4
    · by_cases hf : levelAt hs n = (debouncerAfter b d sig w h0 hs n).lastFlickerableState
      · have hnf : ¬ levelAt hs n ≠ (debouncerAfter b d sig w h0 hs n).lastFlickerableState :=
          not_not.mpr hf
        rw [if_neg hnf] at c4
        rcases i5 with hfl | ⟨i, hi, hrun, hlo, hhi⟩
        · exact absurd (hf.trans hfl) hL
        · have hrun' : ∀ k, i ≤ k → k ≤ n → levelAt hs k ≠ h0.digitalRead := by
            intro k hk1 hk2
            rcases Nat.eq_or_lt_of_le hk2 with hkn | hkn
            · rw [hkn]
              exact hL
            · exact hrun k hk1 hkn
          have hsh := hshort n hn' i (Nat.le_of_lt hi) hrun'
          have hpt : timeAt hs (n - 1) ≤ timeAt hs n := hmono n hn' (n - 1) (Nat.sub_le n 1)
          rw [c4, ulongSub_of_le _ _ (hwrap n hn') (le_trans hhi hpt)] at c6
          have hc : ¬ w ≤ timeAt hs n - (debouncerAfter b d sig w h0 hs n).lastDebounceTime := by
            omega
          refine ⟨c1, c2.trans i2, (c6 hc).1.trans i3, (c6 hc).2.trans i4, Or.inr ⟨i, ?_, ?_, ?_, ?_⟩⟩
          · omega
          · intro k hk1 hk2
            exact hrun' k hk1 (Nat.le_of_lt_succ hk2)
          · rw [c4]
            exact hlo
          · rw [c4]
            exact le_trans hhi hpt
      · have hnf : levelAt hs n ≠ (debouncerAfter b d sig w h0 hs n).lastFlickerableState := hf
        rw [if_pos hnf] at c4
        rw [c4, ulongSub_of_le _ _ (hwrap n hn') (le_refl _), Nat.sub_self] at c6
        have hc : ¬ w ≤ 0 := by omega
        refine ⟨c1, c2.trans i2, (c6 hc).1.trans i3, (c6 hc).2.trans i4,
          Or.inr ⟨n, Nat.lt_succ_self n, ?_, ?_, ?_⟩⟩
        · intro k hk1 hk2
          have hkn : k = n := by omega
          rw [hkn]
          exact hL
        · rw [c4]
        · rw [c4]

/-- C5: after `signalPin(sig, INPUT_PULLUP, DIGITAL, w)` with `w > 0` has seeded the
debouncer with the level `h0.digitalRead`, let the polls `hs` come at non-decreasing
clock values below 2^32, and let every run of consecutive polls that read another
level span less than `w` ms from its first poll to its last (asked of every such
run, which for non-decreasing times is the same as asking it of the maximal
ones).  Then after every poll `lastSteadyState` is the seeded level and `isPressed()`
and `isReleased()` return false. -/
theorem debounce_bounce (b : Board) (d : MUX74HC4067) (sig w : Nat) (h0 : HalIn)
    (hs : List HalIn) (hw : 0 < w)
    (hmono : ∀ j, j < hs.length → ∀ i, i ≤ j → timeAt hs i ≤ timeAt hs j)
    (hwrap : ∀ i, i < hs.length → timeAt hs i < ULONG_MOD)
    (hshort : ∀ j, j < hs.length → ∀ i, i ≤ j →
      (∀ k, i ≤ k → k ≤ j → levelAt hs k ≠ h0.digitalRead) → timeAt hs j < timeAt hs i + w)
    (n : Nat) (hn : n < hs.length) :
    (debouncerAfter b d sig w h0 hs (n + 1)).lastSteadyState = h0.digitalRead ∧
    ((debouncerAfter b d sig w h0 hs (n + 1)).isPressed (-1)).2.2 = false ∧
    ((debouncerAfter b d sig w h0 hs (n + 1)).isReleased (-1)).2.2 = false := by
  obtain ⟨_, _, i3, i4, _⟩ :=
    debounce_bounce_invariant b d sig w h0 hs hw hmono hwrap hshort (n + 1) hn
  refine ⟨i4, ?_, ?_⟩
  · rw [Bool.eq_false_iff, Ne, isPressed_no_channel]
    rintro ⟨_, hp, hl⟩
    exact high_ne_low ((hp.symm.trans i3).trans (i4.symm.trans hl))
  · rw [Bool.eq_false_iff, Ne, isReleased_no_channel]
    rintro ⟨_, hp, hl⟩
    exact high_ne_low ((hl.symm.trans i4).trans (i3.symm.trans hp))

/-- C5, witness: `w = 50`, seeded HIGH, and the polls HIGH@0, LOW@10, HIGH@20, LOW@30,
HIGH@40: `lastSteadyState` is HIGH after each of the five polls, and neither
`isPressed()` nor `isReleased()` returns true after any of them. -/
theorem debounce_bounce_witness :
    ((debouncerAfter Board.avr demo4 14 50 ⟨1, 0, 0, 0⟩ bouncePolls 1).lastSteadyState = 1 ∧
      ((debouncerAfter Board.avr demo4 14 50 ⟨1, 0, 0, 0⟩ bouncePolls 1).isPressed (-1)).2.2 = false ∧
      ((debouncerAfter Board.avr demo4 14 50 ⟨1, 0, 0, 0⟩ bouncePolls 1).isReleased (-1)).2.2 = false) ∧
    ((debouncerAfter Board.avr demo4 14 50 ⟨1, 0, 0, 0⟩ bouncePolls 2).lastSteadyState = 1 ∧
      ((debouncerAfter Board.avr demo4 14 50 ⟨1, 0, 0, 0⟩ bouncePolls 2).isPressed (-1)).2.2 = false ∧
      ((debouncerAfter Board.avr demo4 14 50 ⟨1, 0, 0, 0⟩ bouncePolls 2).isReleased (-1)).2.2 = false) ∧
    ((debouncerAfter Board.avr demo4 14 50 ⟨1, 0, 0, 0⟩ bouncePolls 3).lastSteadyState = 1 ∧
      ((debouncerAfter Board.avr demo4 14 50 ⟨1, 0, 0, 0⟩ bouncePolls 3).isPressed (-1)).2.2 = false ∧
      ((debouncerAfter Board.avr demo4 14 50 ⟨1, 0, 0, 0⟩ bouncePolls 3).isReleased (-1)).2.2 = false) ∧
    ((debouncerAfter Board.avr demo4 14 50 ⟨1, 0, 0, 0⟩ bouncePolls 4).lastSteadyState = 1 ∧
      ((debouncerAfter Board.avr demo4 14 50 ⟨1, 0, 0, 0⟩ bouncePolls 4).isPressed (-1)).2.2 = false ∧
      ((debouncerAfter Board.avr demo4 14 50 ⟨1, 0, 0, 0⟩ bouncePolls 4).isReleased (-1)).2.2 = false) ∧
    ((debouncerAfter Board.avr demo4 14 50 ⟨1, 0, 0, 0⟩ bouncePolls 5).lastSteadyState = 1 ∧
      ((debouncerAfter Board.avr demo4 14 50 ⟨1, 0, 0, 0⟩ bouncePolls 5).isPressed (-1)).2.2 = false ∧
      ((debouncerAfter Board.avr demo4 14 50 ⟨1, 0, 0, 0⟩ bouncePolls 5).isReleased (-1)).2.2 = false) :=
  have h := debounce_bounce Board.avr demo4 14 50 ⟨1, 0, 0, 0⟩ bouncePolls (by decide)
    (by decide) (by decide) (by decide)
  ⟨h 0 (by decide), h 1 (by decide), h 2 (by decide), h 3 (by decide), h 4 (by decide)⟩

/-! ## Enable state -/

/-- C11, the code at the failing input: on the driver with enable pin 2, after
`disable()` the call `read(7)` leaves `enable_status = ENABLED`, while the enable pin
was last driven HIGH and `current_channel` is back at 0. -/
theorem read_after_disable_enable_status :
    demo4.disable.1.enable_status = DISABLED ∧
    (demo4.disable.1.read 7 ⟨0, 0, 0, 0⟩).1.enable_status = ENABLED ∧
    (demo4.disable.1.read 7 ⟨0, 0, 0, 0⟩).1.current_channel = 0 ∧
    lastDigitalWrite 2 (demo4.disable.2 ++ (demo4.disable.1.read 7 ⟨0, 0, 0, 0⟩).2.1)
      = some HIGH := by
  decide

/-- C12, the code at the failing input: after construction, `setChannel(3, DISABLED)`
leaves `enable_status = ENABLED` while the last level written to the enable pin 2
is HIGH. -/
theorem setChannel_disabled_enable_status :
    (demo4.run Board.avr [Op.setChannel 3 DISABLED]).1.enable_status = ENABLED ∧
    lastDigitalWrite 2
      ((MUX74HC4067.ctor Board.avr 2 3 4 5 6 ⟨0, 0, 0, 0, 0⟩).2 ++
        (demo4.run Board.avr [Op.setChannel 3 DISABLED]).2) = some HIGH := by
  decide

/-! ## Failure values -/

/-- What `write` does in an input mode: nothing, and it returns the `uint8_t` of -1. -/
theorem write_input (b : Board) (d : MUX74HC4067) (chan_pin : Int) (data : Nat) (type : Int)
    (hm : d.signal_mode = b.INPUT ∨ d.signal_mode = b.INPUT_PULLUP) :
    d.write b chan_pin data type = (d, [], 255) := by
  simp [MUX74HC4067.write, hm, toUInt8]

/-- C14 as amended: for every driver state whose signal direction is OUTPUT, every
channel argument and every HAL value, `read` returns what it returns for an input:
the `int16_t` value of the HAL read selected by the signal type, and -1 only when
the signal type is unset. -/
theorem read_output_dispatch (b : Board) (d : MUX74HC4067) (chan_pin : Int) (h : HalIn)
    (hm : d.signal_mode = b.OUTPUT) :
    (d.read chan_pin h).1.signal_mode = b.OUTPUT ∧
    (d.read chan_pin h).2.2 =
      (if d.signal_pin_status = 0 then toInt16 h.analogRead
        else if d.signal_pin_status = 1 then toInt16 h.digitalRead
        else if d.signal_pin_status = 2 then toInt16 h.pulseIn
        else -1) := by
  by_cases hc : chan_pin = -1
  · simp [MUX74HC4067.read, hc, hm]
    split_ifs <;> rfl
  · simp [MUX74HC4067.read, MUX74HC4067.setChannel, hc, hm]
    split_ifs <;> rfl

/-- C14, witness of the amended claim: after `signalPin(14, OUTPUT, DIGITAL)`, `read(7)`
returns the digital level 1. -/
theorem read_output_dispatch_witness :
    ((demo4.signalPin Board.avr 14 1 DIGITAL 50 ⟨0, 0, 0, 0⟩).1.read 7 ⟨1, 0, 0, 0⟩).2.2 = 1 :=
  (read_output_dispatch Board.avr (demo4.signalPin Board.avr 14 1 DIGITAL 50 ⟨0, 0, 0, 0⟩).1 7
    ⟨1, 0, 0, 0⟩ rfl).2

/-- C14, counterexample: after `signalPin(14, OUTPUT, ANALOG)` the signal direction is
OUTPUT, and `read()` with the ADC returning 812 returns 812, not -1. -/
theorem read_output_returns_reading :
    (demo4.signalPin Board.avr 14 1 ANALOG 50 ⟨0, 0, 0, 0⟩).1.signal_mode = Board.avr.OUTPUT ∧
    ((demo4.signalPin Board.avr 14 1 ANALOG 50 ⟨0, 0, 0, 0⟩).1.read (-1) ⟨0, 812, 0, 0⟩).2
      = ([HalEvent.analogRead 14], 812) := by
  decide

/-- C15 as amended: in every driver state whose signal type is unset, `write` is a
no-op failure (it returns 255, the `uint8_t` of -1, issues no HAL call and leaves
the state unchanged) exactly when the recorded signal direction is INPUT or
INPUT_PULLUP. -/
theorem write_unset_type_iff (b : Board) (d : MUX74HC4067) (chan_pin : Int) (data : Nat)
    (type : Int) (hs : d.signal_pin_status = -1) :
    ((d.write b chan_pin data type).2.2 = 255 ∧
      (d.write b chan_pin data type).2.1 = [] ∧
      (d.write b chan_pin data type).1 = d ∧
      (d.write b chan_pin data type).1.signal_pin_status = -1) ↔
    (d.signal_mode = b.INPUT ∨ d.signal_mode = b.INPUT_PULLUP) := by
  constructor
  · rintro ⟨hr, _, _, _⟩
    by_contra hm
    rw [(write_trace b d chan_pin data type hm).1] at hr
    exact absurd hr (by decide)
  · intro hm
    rw [write_input b d chan_pin data type hm]
    exact ⟨rfl, rfl, rfl, hs⟩

/-- C15, witness of the amended claim: the freshly constructed driver on the AVR
board, where `signal_mode` is 0, the value of INPUT; `write(5, 1, DIGITAL)` returns
255 and issues no HAL call. -/
theorem write_unset_type_iff_witness :
    (demo4.write Board.avr 5 1 1).2.2 = 255 ∧ (demo4.write Board.avr 5 1 1).2.1 = [] :=
  have h := (write_unset_type_iff Board.avr demo4 5 1 1 rfl).mpr (Or.inl rfl)
  ⟨h.1, h.2.1⟩

/-- C15, counterexample: after `signalPin(14, OUTPUT, 7)` the signal type is still
unset, and `write(5, 1, DIGITAL)` returns 0, writes to the enable pin, the signal
pin and the control pins, and leaves `current_channel = 5`. -/
theorem write_unset_type_output_succeeds :
    (demo4.signalPin Board.avr 14 1 7 50 ⟨0, 0, 0, 0⟩).1.signal_pin_status = -1 ∧
    ((demo4.signalPin Board.avr 14 1 7 50 ⟨0, 0, 0, 0⟩).1.write Board.avr 5 1 1).2 =
      ([HalEvent.digitalWrite 2 1, HalEvent.digitalWrite 14 1,
        HalEvent.digitalWrite 2 1, HalEvent.digitalWrite 3 1, HalEvent.digitalWrite 4 0,
        HalEvent.digitalWrite 5 1, HalEvent.digitalWrite 6 0, HalEvent.digitalWrite 2 0], 0) ∧
    ((demo4.signalPin Board.avr 14 1 7 50 ⟨0, 0, 0, 0⟩).1.write Board.avr 5 1 1).1.current_channel
      = 5 := by
  decide

/-- C16 as amended: when `write` fails because the signal pin is an input, it has no
side effect at all: `disable()` has not been performed, so `enable_status` and every
other field of the state are unchanged, and after the call every pin still has
the level it last received before it. -/
theorem write_input_no_side_effect (b : Board) (d : MUX74HC4067) (chan_pin : Int)
    (data : Nat) (type : Int) (tr : List HalEvent) (pin : Nat)
    (hm : d.signal_mode = b.INPUT ∨ d.signal_mode = b.INPUT_PULLUP) :
    (d.write b chan_pin data type).1.enable_status = d.enable_status ∧
    (d.write b chan_pin data type).1 = d ∧
    lastDigitalWrite pin (tr ++ (d.write b chan_pin data type).2.1) = lastDigitalWrite pin tr := by
  rw [write_input b d chan_pin data type hm]
  exact ⟨rfl, rfl, by rw [List.append_nil]⟩

/-- C16, witness of the amended claim: after `signalPin(14, INPUT_PULLUP, DIGITAL)` and
`enable()`, the failed `write(5, 1, DIGITAL)` leaves `enable_status = ENABLED` and the
enable pin 2 at the LOW it last received. -/
theorem write_input_no_side_effect_witness :
    (((demo4.signalPin Board.avr 14 2 DIGITAL 50 ⟨1, 0, 0, 0⟩).1.enable).1.write
      Board.avr 5 1 1).1.enable_status = ENABLED ∧
    lastDigitalWrite 2 ([HalEvent.digitalWrite 2 0] ++
      (((demo4.signalPin Board.avr 14 2 DIGITAL 50 ⟨1, 0, 0, 0⟩).1.enable).1.write
        Board.avr 5 1 1).2.1) = some 0 :=
  have h := write_input_no_side_effect Board.avr
    ((demo4.signalPin Board.avr 14 2 DIGITAL 50 ⟨1, 0, 0, 0⟩).1.enable).1 5 1 1
    [HalEvent.digitalWrite 2 0] 2 (Or.inr rfl)
  ⟨h.1, h.2.2⟩

/-- C16, counterexample: after `signalPin(14, INPUT_PULLUP, DIGITAL)` and `enable()`, the
call `write(5, 1, DIGITAL)` fails with 255, issues no HAL call (the enable pin is not
driven HIGH) and leaves `enable_status = ENABLED`, not DISABLED. -/
theorem write_failure_skips_disable :
    (((demo4.signalPin Board.avr 14 2 DIGITAL 50 ⟨1, 0, 0, 0⟩).1.enable).1.write
      Board.avr 5 1 1).2 = ([], 255) ∧
    (((demo4.signalPin Board.avr 14 2 DIGITAL 50 ⟨1, 0, 0, 0⟩).1.enable).1.write
      Board.avr 5 1 1).1.enable_status = ENABLED ∧
    ENABLED ≠ DISABLED := by
  decide

/-! ## Construction -/

/-- C17 as amended: for every constructor call whose provided control-pin ids fill
the first slots (`s0` is provided, and a slot is provided only if the slot before it
is), the HAL calls are: `en` set to OUTPUT, `en` driven HIGH, then each provided
control pin set to OUTPUT, and nothing else; the state has `enable_status = DISABLED`,
`current_channel = 0`, as control pins exactly the provided ids, and an unset signal
pin and signal type. -/
theorem ctor_prefix (b : Board) (en : Nat) (s0 s1 s2 s3 : Int) (u : Uninit)
    (h0 : s0 ≠ -1) (h12 : s2 ≠ -1 → s1 ≠ -1) (h23 : s3 ≠ -1 → s2 ≠ -1) :
    (MUX74HC4067.ctor b en s0 s1 s2 s3 u).2 =
      [HalEvent.pinMode en b.OUTPUT, HalEvent.digitalWrite en HIGH] ++
        (providedPins s0 s1 s2 s3).map (fun s => HalEvent.pinMode (toUInt8 s) b.OUTPUT) ∧
    (MUX74HC4067.ctor b en s0 s1 s2 s3 u).1.enable_pin = en ∧
    (MUX74HC4067.ctor b en s0 s1 s2 s3 u).1.enable_status = DISABLED ∧
    (MUX74HC4067.ctor b en s0 s1 s2 s3 u).1.current_channel = 0 ∧
    (MUX74HC4067.ctor b en s0 s1 s2 s3 u).1.num_of_control_pins
      = (providedPins s0 s1 s2 s3).length ∧
    (MUX74HC4067.ctor b en s0 s1 s2 s3 u).1.control_pin.take
        (MUX74HC4067.ctor b en s0 s1 s2 s3 u).1.num_of_control_pins
      = providedPins s0 s1 s2 s3 ∧
    (MUX74HC4067.ctor b en s0 s1 s2 s3 u).1.signal_pin = -1 ∧
    (MUX74HC4067.ctor b en s0 s1 s2 s3 u).1.signal_pin_status = -1 := by
  by_cases h1 : s1 = -1
  · have h2 : s2 = -1 := by
      by_contra hc
      exact h12 hc h1
    have h3 : s3 = -1 := by
      by_contra hc
      exact h23 hc h2
    subst h1 h2 h3
    simp [MUX74HC4067.ctor, providedPins, ctorLoop, h0]
  · by_cases h2 : s2 = -1
    · have h3 : s3 = -1 := by
        by_contra hc
        exact h23 hc h2
      subst h2 h3
      simp [MUX74HC4067.ctor, providedPins, ctorLoop, h0, h1]
    · by_cases h3 : s3 = -1
      · subst h3
        simp [MUX74HC4067.ctor, providedPins, ctorLoop, h0, h1, h2]
      · simp [MUX74HC4067.ctor, providedPins, ctorLoop, h0, h1, h2, h3]

/-- C17, witness of the amended claim: `MUX74HC4067(2, 3, 4)` sets pins 2, 3 and 4 to
OUTPUT, drives pin 2 HIGH, and has the two control pins 3 and 4. -/
theorem ctor_prefix_witness :
    (MUX74HC4067.ctor Board.avr 2 3 4 (-1) (-1) ⟨0, 0, 0, 0, 0⟩).2 =
      [HalEvent.pinMode 2 1, HalEvent.digitalWrite 2 1, HalEvent.pinMode 3 1,
       HalEvent.pinMode 4 1] ∧
    (MUX74HC4067.ctor Board.avr 2 3 4 (-1) (-1) ⟨0, 0, 0, 0, 0⟩).1.num_of_control_pins = 2 :=
  have h := ctor_prefix Board.avr 2 3 4 (-1) (-1) ⟨0, 0, 0, 0, 0⟩ (by decide) (by decide)
    (by decide)
  ⟨h.1, h.2.2.2.2.1⟩

/-- C17, counterexample: `MUX74HC4067(2, 3, -1, 5, -1)` provides the control pins 3 and 5
with the unused slots at -1; the constructor sets pins 2, 3 and 255 to OUTPUT and
not pin 5, and its two control pins are 3 and -1. -/
theorem ctor_gap_misses_pin :
    (MUX74HC4067.ctor Board.avr 2 3 (-1) 5 (-1) ⟨0, 0, 0, 0, 0⟩).2 =
      [HalEvent.pinMode 2 1, HalEvent.digitalWrite 2 1, HalEvent.pinMode 3 1,
       HalEvent.pinMode 255 1] ∧
    providedPins 3 (-1) 5 (-1) = [3, 5] ∧
    (MUX74HC4067.ctor Board.avr 2 3 (-1) 5 (-1) ⟨0, 0, 0, 0, 0⟩).1.control_pin.take
        (MUX74HC4067.ctor Board.avr 2 3 (-1) 5 (-1) ⟨0, 0, 0, 0, 0⟩).1.num_of_control_pins
      = [3, -1] := by
  decide

/-! ## Edge queries and polls -/

/-- A run of edge queries without a channel argument changes nothing. -/
theorem run_isReleased_replicate (b : Board) (d : MUX74HC4067) :
    ∀ n, d.run b (List.replicate n (Op.isReleased (-1))) = (d, []) := by
  intro n
  induction n with
  | zero => rfl
  | succ n ih =>
    have hstep : d.step b (Op.isReleased (-1)) = (d, []) := by
      simp [MUX74HC4067.step, MUX74HC4067.isReleased]
    rw [List.replicate_succ, MUX74HC4067.run, hstep, ih]
    rfl

/-- C18: `isReleased()` and `isPressed()` without a channel argument leave the state
unchanged and issue no HAL call.  So in a state where `isReleased()` returns true,
it still returns true after any number of further `isReleased()` calls and after a
`checkTiming` whose debounce test fails; a `checkTiming` whose debounce test passes
assigns `previousSteadyState = lastSteadyState`, after which `isReleased()` returns
false. -/
theorem isReleased_keeps_edge (b : Board) (d : MUX74HC4067)
    (hr : (d.isReleased (-1)).2.2 = true) :
    ((d.isReleased (-1)).1 = d ∧ (d.isReleased (-1)).2.1 = []) ∧
    ((d.isPressed (-1)).1 = d ∧ (d.isPressed (-1)).2.1 = []) ∧
    (∀ n, (((d.run b (List.replicate n (Op.isReleased (-1)))).1).isReleased (-1)).2.2 = true ∧
      (d.run b (List.replicate n (Op.isReleased (-1)))).2 = []) ∧
    (∀ h, debouncePasses d h →
      (d.checkTiming h).1.previousSteadyState = d.lastSteadyState ∧
      ((d.checkTiming h).1.isReleased (-1)).2.2 = false) ∧
    (∀ h, ¬ debouncePasses d h → ((d.checkTiming h).1.isReleased (-1)).2.2 = true) := by
  obtain ⟨hs, hp, hl⟩ := (isReleased_no_channel d).mp hr
  refine ⟨⟨by simp [MUX74HC4067.isReleased], by simp [MUX74HC4067.isReleased]⟩,
    ⟨by simp [MUX74HC4067.isPressed], by simp [MUX74HC4067.isPressed]⟩, ?_, ?_, ?_⟩
  · intro n
    rw [run_isReleased_replicate b d n]
    exact ⟨hr, rfl⟩
  · intro h hpass
    obtain ⟨_, _, _, c4, c5, _⟩ := checkTiming_digital d h hs
    have hc : d.debounceTime ≤
        ulongSub (h.millis % ULONG_MOD) (d.checkTiming h).1.lastDebounceTime := by
      rw [c4]
      exact hpass.2
    refine ⟨(c5 hc).1, ?_⟩
    rw [Bool.eq_false_iff, Ne, isReleased_no_channel]
    rintro ⟨_, hp', _⟩
    rw [(c5 hc).1, hl] at hp'
    exact high_ne_low hp'
  · intro h hfail
    obtain ⟨c1, _, _, c4, _, c6⟩ := checkTiming_digital d h hs
    have hc : ¬ d.debounceTime ≤
        ulongSub (h.millis % ULONG_MOD) (d.checkTiming h).1.lastDebounceTime := by
      rw [c4]
      exact fun hle => hfail ⟨hs, hle⟩
    rw [isReleased_no_channel]
    exact ⟨c1, (c6 hc).1.trans hp, (c6 hc).2.trans hl⟩

/-- C18, witness: after a debounced release (seeded LOW, HIGH from 10 ms, accepted at
60 ms) `isReleased()` returns true, also after three more `isReleased()` calls, and
false after the poll at 70 ms, which passes the debounce test. -/
theorem isReleased_keeps_edge_witness :
    ((((debouncerAfter Board.avr demo4 14 50 ⟨0, 0, 0, 0⟩
        [⟨1, 0, 0, 10⟩, ⟨1, 0, 0, 60⟩] 2).run Board.avr
          (List.replicate 3 (Op.isReleased (-1)))).1).isReleased (-1)).2.2 = true ∧
    (((debouncerAfter Board.avr demo4 14 50 ⟨0, 0, 0, 0⟩
        [⟨1, 0, 0, 10⟩, ⟨1, 0, 0, 60⟩] 2).checkTiming ⟨1, 0, 0, 70⟩).1.isReleased (-1)).2.2
      = false :=
  have h := isReleased_keeps_edge Board.avr
    (debouncerAfter Board.avr demo4 14 50 ⟨0, 0, 0, 0⟩ [⟨1, 0, 0, 10⟩, ⟨1, 0, 0, 60⟩] 2)
    (by decide)
  ⟨(h.2.2.1 3).1, (h.2.2.2.1 ⟨1, 0, 0, 70⟩ (by decide)).2⟩

/-! ## Signal-pin configuration -/

/-- C19 as amended: with pairwise different mode constants and a type among ANALOG,
DIGITAL and DIGITAL_PULSE, `signalPin(sig, mode, type, w)` records the pin, the
direction and the type and applies the pin mode for each of INPUT, INPUT_PULLUP and
OUTPUT.  For INPUT it writes LOW to the pin before setting the mode, for
INPUT_PULLUP it issues no write.  For INPUT and INPUT_PULLUP, on any driver state,
it then reads the pin and resets the debounce state to that level, with
`lastDebounceTime = 0` and the debounce window `w`; for OUTPUT it reads nothing and
leaves the debounce state and the debounce window as they were. -/
theorem signalPin_effect (b : Board) (d : MUX74HC4067) (sig type w : Nat) (h : HalIn)
    (hb : b.INPUT ≠ b.INPUT_PULLUP ∧ b.OUTPUT ≠ b.INPUT ∧ b.OUTPUT ≠ b.INPUT_PULLUP)
    (ht : type = ANALOG ∨ type = DIGITAL ∨ type = DIGITAL_PULSE) :
    ((d.signalPin b sig b.INPUT type w h).2 =
        [HalEvent.digitalWrite sig LOW, HalEvent.pinMode sig b.INPUT, HalEvent.digitalRead sig] ∧
      (d.signalPin b sig b.INPUT type w h).1 =
        { d with
          signal_pin := toInt8 sig
          signal_mode := b.INPUT
          signal_pin_status := type
          previousSteadyState := h.digitalRead
          lastSteadyState := h.digitalRead
          lastFlickerableState := h.digitalRead
          lastDebounceTime := 0
          debounceTime := w }) ∧
    ((d.signalPin b sig b.INPUT_PULLUP type w h).2 =
        [HalEvent.pinMode sig b.INPUT_PULLUP, HalEvent.digitalRead sig] ∧
      (d.signalPin b sig b.INPUT_PULLUP type w h).1 =
        { d with
          signal_pin := toInt8 sig
          signal_mode := b.INPUT_PULLUP
          signal_pin_status := type
          previousSteadyState := h.digitalRead
          lastSteadyState := h.digitalRead
          lastFlickerableState := h.digitalRead
          lastDebounceTime := 0
          debounceTime := w }) ∧
    ((d.signalPin b sig b.OUTPUT type w h).2 = [HalEvent.pinMode sig b.OUTPUT] ∧
      (d.signalPin b sig b.OUTPUT type w h).1 =
        { d with
          signal_pin := toInt8 sig
          signal_mode := b.OUTPUT
          signal_pin_status := type }) := by
  obtain ⟨hb1, hb2, hb3⟩ := hb
  rcases ht with ht | ht | ht <;> subst ht <;>
    simp [MUX74HC4067.signalPin, hb1, hb2, hb3, ANALOG, DIGITAL, DIGITAL_PULSE]

/-- C19, witness of the amended claim: on the AVR board, `signalPin(14, INPUT, ANALOG, 30)`
reading the level 1 writes LOW to pin 14, sets it to INPUT and reads it. -/
theorem signalPin_effect_witness :
    (demo4.signalPin Board.avr 14 0 ANALOG 30 ⟨1, 0, 0, 0⟩).2 =
      [HalEvent.digitalWrite 14 0, HalEvent.pinMode 14 0, HalEvent.digitalRead 14] :=
  (signalPin_effect Board.avr demo4 14 ANALOG 30 ⟨1, 0, 0, 0⟩ (by decide) (Or.inl rfl)).1.1

/-- C19, counterexample: after `signalPin(14, INPUT_PULLUP, DIGITAL, 50)` reading HIGH and
polls reading LOW at 10 ms and 60 ms, the reconfiguration
`signalPin(14, OUTPUT, DIGITAL, 99)` reads no level and leaves
`previousSteadyState = HIGH`, `lastSteadyState = LOW`, `lastDebounceTime = 10` and the
debounce window 50. -/
theorem signalPin_output_keeps_debounce :
    (demo4.run Board.avr
      [Op.signalPin 14 2 DIGITAL 50 ⟨1, 0, 0, 0⟩, Op.checkTiming ⟨0, 0, 0, 10⟩,
       Op.checkTiming ⟨0, 0, 0, 60⟩, Op.signalPin 14 1 DIGITAL 99 ⟨1, 0, 0, 0⟩]).1 =
      { demo4 with
        signal_pin := 14
        signal_mode := 1
        signal_pin_status := 1
        previousSteadyState := 1
        lastSteadyState := 0
        lastFlickerableState := 0
        lastDebounceTime := 10
        debounceTime := 50 } ∧
    ((demo4.run Board.avr
      [Op.signalPin 14 2 DIGITAL 50 ⟨1, 0, 0, 0⟩, Op.checkTiming ⟨0, 0, 0, 10⟩,
       Op.checkTiming ⟨0, 0, 0, 60⟩]).1.signalPin Board.avr 14 1 DIGITAL 99 ⟨1, 0, 0, 0⟩).2
      = [HalEvent.pinMode 14 1] := by
  decide

/-! ## Clock rollover -/

/-- The `unsigned long` difference of two clock values is the elapsed time, also
across a rollover of the clock. -/
theorem ulongSub_elapsed (t0 e : Nat) (ht0 : t0 < ULONG_MOD) (he : e < ULONG_MOD) :
    ulongSub ((t0 + e) % ULONG_MOD % ULONG_MOD) t0 = e := by
  unfold ulongSub
  unfold ULONG_MOD at *
  omega

/-- C20: with the clock and `lastDebounceTime` as 32-bit unsigned values, let a level
change have been recorded at clock value `t0 = lastDebounceTime`, and let a poll read
that same level at clock value `(t0 + e) mod 2^32` for an elapsed time `e < 2^32`.
Then the poll accepts the level (`previousSteadyState := lastSteadyState`,
`lastSteadyState := level`) if `e >= debounceTime` and changes nothing otherwise,
whether or not the clock value is numerically below `t0`. -/
theorem checkTiming_rollover (d : MUX74HC4067) (h : HalIn) (e : Nat)
    (hs : d.signal_pin_status = 1) (ht0 : d.lastDebounceTime < ULONG_MOD)
    (he : e < ULONG_MOD) (hl : h.digitalRead = d.lastFlickerableState)
    (ht1 : h.millis = (d.lastDebounceTime + e) % ULONG_MOD) :
    (d.debounceTime ≤ e →
      (d.checkTiming h).1 =
        { d with previousSteadyState := d.lastSteadyState, lastSteadyState := h.digitalRead }) ∧
    (¬ d.debounceTime ≤ e → (d.checkTiming h).1 = d) := by
  have hsub := ulongSub_elapsed d.lastDebounceTime e ht0 he
  rw [← ht1] at hsub
  constructor
  · intro hle
    simp [MUX74HC4067.checkTiming, hs, hl, hsub, hle]
  · intro hle
    simp [MUX74HC4067.checkTiming, hs, hl, hsub, hle]

/-- C20, witness: window 50, a change to LOW recorded at clock value 2^32 - 10; the
poll at clock value 40, 50 ms later, accepts LOW, and the poll at clock value 39,
49 ms later, does not. -/
theorem checkTiming_rollover_witness :
    (debouncerAfter Board.avr demo4 14 50 ⟨1, 0, 0, 0⟩ [⟨0, 0, 0, 4294967286⟩] 1).lastDebounceTime
      = 4294967286 ∧
    ((debouncerAfter Board.avr demo4 14 50 ⟨1, 0, 0, 0⟩
      [⟨0, 0, 0, 4294967286⟩] 1).checkTiming ⟨0, 0, 0, 40⟩).1.lastSteadyState = 0 ∧
    ((debouncerAfter Board.avr demo4 14 50 ⟨1, 0, 0, 0⟩
      [⟨0, 0, 0, 4294967286⟩] 1).checkTiming ⟨0, 0, 0, 39⟩).1.lastSteadyState = 1 :=
  have h1 := (checkTiming_rollover
    (debouncerAfter Board.avr demo4 14 50 ⟨1, 0, 0, 0⟩ [⟨0, 0, 0, 4294967286⟩] 1)
    ⟨0, 0, 0, 40⟩ 50 (by decide) (by decide) (by decide) (by decide) (by decide)).1 (by decide)
  have h2 := (checkTiming_rollover
    (debouncerAfter Board.avr demo4 14 50 ⟨1, 0, 0, 0⟩ [⟨0, 0, 0, 4294967286⟩] 1)
    ⟨0, 0, 0, 39⟩ 49 (by decide) (by decide) (by decide) (by decide) (by decide)).2 (by decide)
  ⟨by decide, by rw [h1], by rw [h2]; decide⟩

/-! ## The selection invariant -/

/-- A trace that ends in a write to the pin. -/
theorem lastDigitalWrite_append_some (p : Nat) (tr evs : List HalEvent) (v : Nat)
    (h : lastDigitalWrite p evs = some v) : lastDigitalWrite p (tr ++ evs) = some v := by
  rw [lastDigitalWrite_append, h]

/-- A trace that ends in events that do not write to the pin. -/
theorem lastDigitalWrite_append_none (p : Nat) (tr evs : List HalEvent)
    (h : lastDigitalWrite p evs = none) :
    lastDigitalWrite p (tr ++ evs) = lastDigitalWrite p tr := by
  rw [lastDigitalWrite_append, h]

/-- The loop of the constructor writes no level. -/
theorem lastDigitalWrite_ctorLoop (b : Board) (cp : List Int) (p : Nat) :
    ∀ (n i : Nat), lastDigitalWrite p (ctorLoop b cp n i) = none := by
  intro n
  induction n with
  | zero => intro i; rfl
  | succ n ih =>
    intro i
    rw [ctorLoop, lastDigitalWrite_cons, ih]
    rfl

/-- After `setChannel(c)` with `c` in 0..15 on distinct pins, control pin `i` has
received bit `i` of `c`. -/
theorem lastDigitalWrite_setChannel (d : MUX74HC4067) (c set i : Nat) (hd : DistinctPins d)
    (hc : c ≤ 15) (hi : i < d.num_of_control_pins) :
    lastDigitalWrite (toUInt8 (d.control_pin.getD i 0)) (d.setChannel (c : Int) set).2
      = some ((c >>> i) &&& 1) := by
  have hloop := lastDigitalWrite_setChannelLoop d.control_pin d.num_of_control_pins 0 c i
    (by omega) (Nat.zero_le i) (by omega)
    (fun m _ hm hne => hd.1 m (by omega) i hi hne)
  have hen : digitalWriteTo (toUInt8 (d.control_pin.getD i 0))
      (HalEvent.digitalWrite d.enable_pin LOW) = none :=
    if_neg (fun h => hd.2 i hi h.symm)
  rw [Nat.sub_zero] at hloop
  unfold MUX74HC4067.setChannel
  by_cases hs : set = ENABLED
  · simp only [hs, if_true]
    rw [lastDigitalWrite_append, lastDigitalWrite_cons, lastDigitalWrite, hen,
      lastDigitalWrite_append, hloop]
  · simp only [hs, if_false]
    rw [List.append_nil, lastDigitalWrite_append, hloop]

/-- Distinctness of the pins depends on the wiring only. -/
theorem DistinctPins_of_sameWiring (d d' : MUX74HC4067) (hw : SameWiring d d')
    (hd : DistinctPins d) : DistinctPins d' := by
  obtain ⟨h1, h2, h3⟩ := hw
  unfold DistinctPins
  rw [h1, h2, h3]
  exact hd

/-- The invariant is kept by a call that keeps `current_channel` and the wiring and
writes to no control pin. -/
theorem selectionInv_frame (d d' : MUX74HC4067) (tr evs : List HalEvent)
    (hcc : d'.current_channel = d.current_channel) (hw : SameWiring d d')
    (hev : ∀ i, i < d.num_of_control_pins →
      lastDigitalWrite (toUInt8 (d.control_pin.getD i 0)) evs = none)
    (hinv : SelectionInv d tr) : SelectionInv d' (tr ++ evs) := by
  obtain ⟨h1, h2, _⟩ := hw
  unfold SelectionInv
  rw [hcc, h1, h2]
  refine ⟨hinv.1, fun i hi => ?_⟩
  rw [lastDigitalWrite_append_none _ _ _ (hev i hi)]
  exact hinv.2 i hi

/-- The invariant holds after a call that ends in `setChannel(c)` with `c` in 0..15
and leaves `current_channel = c`. -/
theorem selectionInv_select (d1 d' : MUX74HC4067) (tr pre : List HalEvent) (c set : Nat)
    (hc : c ≤ 15) (hd : DistinctPins d1) (hcc : d'.current_channel = c)
    (hw : SameWiring d1 d') :
    SelectionInv d' (tr ++ (pre ++ (d1.setChannel (c : Int) set).2)) := by
  obtain ⟨h1, h2, _⟩ := hw
  unfold SelectionInv
  rw [hcc, h1, h2]
  refine ⟨hc, fun i hi => Or.inl ?_⟩
  rw [← List.append_assoc]
  exact lastDigitalWrite_append_some _ _ _ _ (lastDigitalWrite_setChannel d1 c set i hd hc hi)

/-- What `setChannel` leaves in the state. -/
theorem setChannel_state (d : MUX74HC4067) (pin : Int) (set : Nat) :
    (d.setChannel pin set).1 =
      { d with current_channel := toUInt8 pin, enable_status := ENABLED } := rfl

/-- What `signalPin` keeps: the selected channel and the wiring. -/
theorem signalPin_frame (b : Board) (d : MUX74HC4067) (sig mode type time : Nat) (h : HalIn) :
    (d.signalPin b sig mode type time h).1.current_channel = d.current_channel ∧
    SameWiring d (d.signalPin b sig mode type time h).1 := by
  unfold SameWiring MUX74HC4067.signalPin
  simp only
  split_ifs <;> exact ⟨rfl, rfl, rfl, rfl⟩

/-- The only level `signalPin` writes goes to the signal pin. -/
theorem signalPin_no_write (b : Board) (d : MUX74HC4067) (sig mode type time : Nat) (h : HalIn)
    (p : Nat) (hp : p ≠ sig) :
    lastDigitalWrite p (d.signalPin b sig mode type time h).2 = none := by
  have hsp : ¬ sig = p := fun hc => hp hc.symm
  unfold MUX74HC4067.signalPin
  simp only
  split_ifs <;> simp [lastDigitalWrite, digitalWriteTo, hsp]

/-- What `checkTiming` keeps: the selected channel and the wiring; it writes no level. -/
theorem checkTiming_frame (d : MUX74HC4067) (h : HalIn) (p : Nat) :
    (d.checkTiming h).1.current_channel = d.current_channel ∧
    SameWiring d (d.checkTiming h).1 ∧
    lastDigitalWrite p (d.checkTiming h).2 = none := by
  unfold SameWiring MUX74HC4067.checkTiming
  simp only
  split_ifs <;> exact ⟨rfl, ⟨rfl, rfl, rfl⟩, rfl⟩

/-- A single write to another pin. -/
theorem lastDigitalWrite_single (p q v : Nat) (h : q ≠ p) :
    lastDigitalWrite p [HalEvent.digitalWrite q v] = none :=
  if_neg h

/-- What `read()` without a channel argument leaves: the state, and no level written. -/
theorem read_none_frame (d : MUX74HC4067) (h : HalIn) (p : Nat) :
    (d.read (-1) h).1 = d ∧ lastDigitalWrite p (d.read (-1) h).2.1 = none := by
  unfold MUX74HC4067.read
  simp only [ne_eq, not_true_eq_false, if_false, List.nil_append, List.append_nil]
  split_ifs <;> simp [lastDigitalWrite, digitalWriteTo]

/-- With a channel argument, `read` ends in the restoring `setChannel`. -/
theorem read_chan_ends_in_select (d : MUX74HC4067) (chan_pin : Int) (h : HalIn)
    (hc : chan_pin ≠ -1) :
    (d.read chan_pin h).1 =
      ((d.setChannel chan_pin ENABLED).1.setChannel (toInt8 d.current_channel)
        d.enable_status).1 ∧
    ∃ pre, (d.read chan_pin h).2.1 = pre ++
      ((d.setChannel chan_pin ENABLED).1.setChannel (toInt8 d.current_channel)
        d.enable_status).2 := by
  unfold MUX74HC4067.read
  simp only [ne_eq, hc, not_false_eq_true, if_true]
  exact ⟨trivial, ⟨_, rfl⟩⟩

/-- When the signal pin is not an input, `write` ends in `setChannel(chan_pin, ENABLED)`. -/
theorem write_ends_in_select (b : Board) (d : MUX74HC4067) (chan_pin : Int) (data : Nat)
    (type : Int) (hm : ¬ (d.signal_mode = b.INPUT ∨ d.signal_mode = b.INPUT_PULLUP)) :
    (d.write b chan_pin data type).1 = (d.disable.1.setChannel chan_pin ENABLED).1 ∧
    ∃ pre, (d.write b chan_pin data type).2.1 = pre ++
      (d.disable.1.setChannel chan_pin ENABLED).2 := by
  unfold MUX74HC4067.write
  simp only [hm, if_false]
  exact ⟨trivial, ⟨_, rfl⟩⟩

/-- What the edge queries do to the state and the pins: nothing without a channel
argument, `setChannel(chan_pin, ENABLED)` with one. -/
theorem edge_query_effect (d : MUX74HC4067) (chan_pin : Int) :
    (chan_pin = -1 →
      (d.isPressed chan_pin).1 = d ∧ (d.isPressed chan_pin).2.1 = [] ∧
      (d.isReleased chan_pin).1 = d ∧ (d.isReleased chan_pin).2.1 = []) ∧
    (chan_pin ≠ -1 →
      (d.isPressed chan_pin).1 = (d.setChannel chan_pin ENABLED).1 ∧
      (d.isPressed chan_pin).2.1 = (d.setChannel chan_pin ENABLED).2 ∧
      (d.isReleased chan_pin).1 = (d.setChannel chan_pin ENABLED).1 ∧
      (d.isReleased chan_pin).2.1 = (d.setChannel chan_pin ENABLED).2) := by
  constructor
  · intro hc
    simp [MUX74HC4067.isPressed, MUX74HC4067.isReleased, hc]
  · intro hc
    simp [MUX74HC4067.isPressed, MUX74HC4067.isReleased, hc]

/-- A channel argument of 0..15 as a natural number. -/
theorem channel_as_nat (pin : Int) (h0 : 0 ≤ pin) (h15 : pin ≤ 15) :
    ∃ c : Nat, pin = (c : Int) ∧ c ≤ 15 := by
  obtain ⟨c, rfl⟩ := Int.eq_ofNat_of_zero_le h0
  exact ⟨c, rfl, by omega⟩

/-- The invariant after a plain `setChannel(c, set)` from a state with distinct pins. -/
theorem selectionInv_setChannel (d : MUX74HC4067) (tr : List HalEvent) (pin : Int) (set : Nat)
    (hd : DistinctPins d) (h0 : 0 ≤ pin) (h15 : pin ≤ 15) :
    SelectionInv (d.setChannel pin set).1 (tr ++ (d.setChannel pin set).2) := by
  obtain ⟨c, rfl, hc⟩ := channel_as_nat pin h0 h15
  have h := selectionInv_select d (d.setChannel (c : Int) set).1 tr [] c set hc hd
    (toUInt8_cast c (by omega)) ⟨rfl, rfl, rfl⟩
  rwa [List.nil_append] at h

/-- One call keeps the selection invariant and the wiring. -/
theorem step_selectionInv (b : Board) (d : MUX74HC4067) (tr : List HalEvent) (op : Op)
    (hd : DistinctPins d) (hinv : SelectionInv d tr) (hok : op.channelOk)
    (hsig : op.sigClear d) :
    SelectionInv (d.step b op).1 (tr ++ (d.step b op).2) ∧ SameWiring d (d.step b op).1 := by
  cases op with
  | setChannel pin set =>
    exact ⟨selectionInv_setChannel d tr pin set hd hok.1 hok.2, ⟨rfl, rfl, rfl⟩⟩
  | enable =>
    exact ⟨selectionInv_frame d d.enable.1 tr d.enable.2 rfl ⟨rfl, rfl, rfl⟩
      (fun i hi => lastDigitalWrite_single _ _ _ (fun h => hd.2 i hi h.symm)) hinv,
      ⟨rfl, rfl, rfl⟩⟩
  | disable =>
    exact ⟨selectionInv_frame d d.disable.1 tr d.disable.2 rfl ⟨rfl, rfl, rfl⟩
      (fun i hi => lastDigitalWrite_single _ _ _ (fun h => hd.2 i hi h.symm)) hinv,
      ⟨rfl, rfl, rfl⟩⟩
  | signalPin sig mode type time h =>
    obtain ⟨f1, f2⟩ := signalPin_frame b d sig mode type time h
    exact ⟨selectionInv_frame d _ tr _ f1 f2
      (fun i hi => signalPin_no_write b d sig mode type time h _ (hsig i hi)) hinv, f2⟩
  | read chan_pin h =>
    show SelectionInv (d.read chan_pin h).1 (tr ++ (d.read chan_pin h).2.1) ∧
      SameWiring d (d.read chan_pin h).1
    by_cases hc : chan_pin = -1
    · subst hc
      have hst := (read_none_frame d h 0).1
      refine ⟨selectionInv_frame d _ tr _ (by rw [hst]) (by rw [hst]; exact ⟨rfl, rfl, rfl⟩)
        (fun i _ => (read_none_frame d h _).2) hinv, by rw [hst]; exact ⟨rfl, rfl, rfl⟩⟩
    · obtain ⟨hst, pre, hev⟩ := read_chan_ends_in_select d chan_pin h hc
      have hcc := toInt8_cast d.current_channel (by have := hinv.1; omega)
      rw [hst, hev, hcc]
      exact ⟨selectionInv_select (d.setChannel chan_pin ENABLED).1 _ tr pre d.current_channel
        d.enable_status hinv.1
        (DistinctPins_of_sameWiring d _ ⟨rfl, rfl, rfl⟩ hd)
        (toUInt8_cast d.current_channel (by have := hinv.1; omega)) ⟨rfl, rfl, rfl⟩,
        ⟨rfl, rfl, rfl⟩⟩
  | write chan_pin data type =>
    show SelectionInv (d.write b chan_pin data type).1 (tr ++ (d.write b chan_pin data type).2.1) ∧
      SameWiring d (d.write b chan_pin data type).1
    by_cases hm : d.signal_mode = b.INPUT ∨ d.signal_mode = b.INPUT_PULLUP
    · rw [write_input b d chan_pin data type hm, List.append_nil]
      exact ⟨hinv, ⟨rfl, rfl, rfl⟩⟩
    · obtain ⟨hst, pre, hev⟩ := write_ends_in_select b d chan_pin data type hm
      obtain ⟨c, rfl, hc⟩ := channel_as_nat chan_pin hok.1 hok.2
      rw [hst, hev]
      exact ⟨selectionInv_select d.disable.1 _ tr pre c ENABLED hc
        (DistinctPins_of_sameWiring d _ ⟨rfl, rfl, rfl⟩ hd)
        (toUInt8_cast c (by omega)) ⟨rfl, rfl, rfl⟩, ⟨rfl, rfl, rfl⟩⟩
  | checkTiming h =>
    obtain ⟨f1, f2, _⟩ := checkTiming_frame d h 0
    exact ⟨selectionInv_frame d _ tr _ f1 f2 (fun i _ => (checkTiming_frame d h _).2.2) hinv, f2⟩
  | isReleased chan_pin =>
    show SelectionInv (d.isReleased chan_pin).1 (tr ++ (d.isReleased chan_pin).2.1) ∧
      SameWiring d (d.isReleased chan_pin).1
    by_cases hc : chan_pin = -1
    · obtain ⟨_, _, e3, e4⟩ := (edge_query_effect d chan_pin).1 hc
      rw [e3, e4, List.append_nil]
      exact ⟨hinv, ⟨rfl, rfl, rfl⟩⟩
    · obtain ⟨_, _, e3, e4⟩ := (edge_query_effect d chan_pin).2 hc
      rw [e3, e4]
      exact ⟨selectionInv_setChannel d tr chan_pin ENABLED hd
        (by have := hok.1; omega) hok.2, ⟨rfl, rfl, rfl⟩⟩
  | isPressed chan_pin =>
    show SelectionInv (d.isPressed chan_pin).1 (tr ++ (d.isPressed chan_pin).2.1) ∧
      SameWiring d (d.isPressed chan_pin).1
    by_cases hc : chan_pin = -1
    · obtain ⟨e1, e2, _, _⟩ := (edge_query_effect d chan_pin).1 hc
      rw [e1, e2, List.append_nil]
      exact ⟨hinv, ⟨rfl, rfl, rfl⟩⟩
    · obtain ⟨e1, e2, _, _⟩ := (edge_query_effect d chan_pin).2 hc
      rw [e1, e2]
      exact ⟨selectionInv_setChannel d tr chan_pin ENABLED hd
        (by have := hok.1; omega) hok.2, ⟨rfl, rfl, rfl⟩⟩

/-- Whether a `signalPin` call avoids the control pins depends on the wiring only. -/
theorem sigClear_of_sameWiring (d d' : MUX74HC4067) (hw : SameWiring d d') (op : Op)
    (h : op.sigClear d) : op.sigClear d' := by
  obtain ⟨h1, h2, _⟩ := hw
  cases op with
  | signalPin sig mode type time hal =>
    unfold Op.sigClear
    rw [h1, h2]
    exact h
  | _ => trivial

/-- A sequence of calls keeps the selection invariant and the wiring. -/
theorem run_selectionInv (b : Board) :
    ∀ (ops : List Op) (d : MUX74HC4067) (tr : List HalEvent), DistinctPins d →
      SelectionInv d tr → (∀ op, op ∈ ops → op.channelOk ∧ op.sigClear d) →
      SelectionInv (d.run b ops).1 (tr ++ (d.run b ops).2) ∧ SameWiring d (d.run b ops).1 := by
  intro ops
  induction ops with
  | nil =>
    intro d tr _ hinv _
    show SelectionInv d (tr ++ []) ∧ SameWiring d d
    rw [List.append_nil]
    exact ⟨hinv, ⟨rfl, rfl, rfl⟩⟩
  | cons op ops ih =>
    intro d tr hd hinv hops
    obtain ⟨hok, hsig⟩ := hops op (List.mem_cons_self _ _)
    obtain ⟨s1, w1⟩ := step_selectionInv b d tr op hd hinv hok hsig
    have hd1 := DistinctPins_of_sameWiring d _ w1 hd
    obtain ⟨s2, w2⟩ := ih (d.step b op).1 (tr ++ (d.step b op).2) hd1 s1
      (fun op' hm => ⟨(hops op' (List.mem_cons_of_mem _ hm)).1,
        sigClear_of_sameWiring d _ w1 op' (hops op' (List.mem_cons_of_mem _ hm)).2⟩)
    show SelectionInv (MUX74HC4067.run b (d.step b op).1 ops).1
        (tr ++ ((d.step b op).2 ++ (MUX74HC4067.run b (d.step b op).1 ops).2)) ∧
      SameWiring d (MUX74HC4067.run b (d.step b op).1 ops).1
    rw [← List.append_assoc]
    exact ⟨s2, ⟨w2.1.trans w1.1, w2.2.1.trans w1.2.1, w2.2.2.trans w1.2.2⟩⟩

/-- C13 as amended: construct a driver whose pins in use are distinct, then make any
sequence of public calls whose channel arguments are in 0..15 (or left out) and
whose `signalPin` calls name none of the control pins.  In the state reached, the
control pins, their number `k` and the enable pin are those of the construction,
`current_channel` is at most 15, and every control pin `i < k` last received bit `i`
of `current_channel`, or has received no level since construction while
`current_channel` is 0. -/
theorem selection_invariant (b : Board) (en : Nat) (s0 s1 s2 s3 : Int) (u : Uninit)
    (ops : List Op) (hd : DistinctPins (MUX74HC4067.ctor b en s0 s1 s2 s3 u).1)
    (hops : ∀ op, op ∈ ops →
      op.channelOk ∧ op.sigClear (MUX74HC4067.ctor b en s0 s1 s2 s3 u).1) :
    SameWiring (MUX74HC4067.ctor b en s0 s1 s2 s3 u).1
      ((MUX74HC4067.ctor b en s0 s1 s2 s3 u).1.run b ops).1 ∧
    SelectionInv ((MUX74HC4067.ctor b en s0 s1 s2 s3 u).1.run b ops).1
      ((MUX74HC4067.ctor b en s0 s1 s2 s3 u).2 ++
        ((MUX74HC4067.ctor b en s0 s1 s2 s3 u).1.run b ops).2) := by
  have hbase : SelectionInv (MUX74HC4067.ctor b en s0 s1 s2 s3 u).1
      (MUX74HC4067.ctor b en s0 s1 s2 s3 u).2 := by
    refine ⟨Nat.zero_le 15, fun i hi => Or.inr ⟨?_, rfl⟩⟩
    have hne : ¬ en = toUInt8 ((MUX74HC4067.ctor b en s0 s1 s2 s3 u).1.control_pin.getD i 0) :=
      fun h => hd.2 i hi h.symm
    show lastDigitalWrite _ ([HalEvent.pinMode en b.OUTPUT, HalEvent.digitalWrite en HIGH] ++
      ctorLoop b _ _ 0) = none
    rw [lastDigitalWrite_append_none _ _ _ (lastDigitalWrite_ctorLoop b _ _ _ 0),
      lastDigitalWrite_cons, lastDigitalWrite_single _ _ _ hne]
    rfl
  obtain ⟨h1, h2⟩ := run_selectionInv b ops _ _ hd hbase hops
  exact ⟨h2, h1⟩

/-- C13, witness of the amended claim: the driver with the control pins 3 and 4, then
`setChannel(10)`, `read(7)` and `isPressed()`: `current_channel` is 10 and the pins 3
and 4 carry its bits 0 and 1. -/
theorem selection_invariant_witness :
    SelectionInv
      (demo2.run Board.avr
        [Op.setChannel 10 ENABLED, Op.read 7 ⟨0, 0, 0, 0⟩, Op.isPressed (-1)]).1
      ((MUX74HC4067.ctor Board.avr 2 3 4 (-1) (-1) ⟨0, 0, 0, 0, 0⟩).2 ++
        (demo2.run Board.avr
          [Op.setChannel 10 ENABLED, Op.read 7 ⟨0, 0, 0, 0⟩, Op.isPressed (-1)]).2) ∧
    (demo2.run Board.avr
      [Op.setChannel 10 ENABLED, Op.read 7 ⟨0, 0, 0, 0⟩, Op.isPressed (-1)]).1.current_channel
      = 10 ∧
    lastDigitalWrite 3 (demo2.run Board.avr
      [Op.setChannel 10 ENABLED, Op.read 7 ⟨0, 0, 0, 0⟩, Op.isPressed (-1)]).2 = some 0 ∧
    lastDigitalWrite 4 (demo2.run Board.avr
      [Op.setChannel 10 ENABLED, Op.read 7 ⟨0, 0, 0, 0⟩, Op.isPressed (-1)]).2 = some 1 :=
  ⟨(selection_invariant Board.avr 2 3 4 (-1) (-1) ⟨0, 0, 0, 0, 0⟩
      [Op.setChannel 10 ENABLED, Op.read 7 ⟨0, 0, 0, 0⟩, Op.isPressed (-1)]
      (by decide) (by decide)).2,
    by decide, by decide, by decide⟩

/-- C13, counterexample: on the driver with the two control pins 3 and 4 (distinct
from the enable pin 2), `setChannel(10)` leaves `current_channel = 10`, above
`2^2 - 1 = 3`. -/
theorem current_channel_not_reduced :
    DistinctPins demo2 ∧
    demo2.num_of_control_pins = 2 ∧
    (demo2.run Board.avr [Op.setChannel 10 ENABLED]).1.current_channel = 10 ∧
    2 ^ 2 - 1 < 10 := by
  decide
